import Mathlib

/-!
Verification of the one-flight fan-out search orchestration and reconciliation
engine, shallowly embedded from the TypeScript sources:

* `src/services/flight-search.service.ts` (pair expansion, per-pair search
  execution, deduplication, price ranking, candidate extraction/validation),
* `src/services/smart-search.service.ts` (deep-link enrichment, execution
  envelope, initialization),
* `src/sdk-agents/flight-search/schema.ts` (input schema),
* `src/types/index.ts` (flight record schema).

JavaScript numbers are embedded as `Rat`; timestamps (`Date.now()`) as `Nat`
parameters; the injected provider call as an explicit function argument whose
outcome is either a thrown exception or a returned result envelope.  JavaScript
`Array.prototype.sort` is stable (ECMA-262) and its comparator here is
`(a, b) => a.price - b.price`, so it is embedded as a stable merge sort with
the boolean relation `a.price ≤ b.price`.
-/

namespace OneFlight

/-- Direction tag of a flight, `'outbound' | 'return'` in the source
(`return` is a Lean keyword, hence `return_`). -/
inductive FlightDirection where
  | outbound
  | return_
deriving DecidableEq

/-- A `{ utc, local }` time pair (`local` is a Lean keyword, hence
`localTime`). -/
structure TimePair where
  utc : String
  localTime : String
deriving DecidableEq

/-- A layover entry of the SDK flight schema
(`schema.ts`: `{ at, city, cityCode?, durationInSeconds? }`; `at` is a Lean
keyword, hence `at_`). -/
structure Layover where
  at_ : String
  city : String
  cityCode : Option String
  durationInSeconds : Option Rat
deriving DecidableEq

/-- The flight record handled by the orchestration and enrichment code
(`FlightResultSchema` in `sdk-agents/flight-search/schema.ts`, re-exported
as the `FlightResult` type consumed by the services). -/
structure FlightResult where
  id : String
  flyFrom : String
  flyTo : String
  cityFrom : String
  cityTo : String
  departure : TimePair
  arrival : TimePair
  totalDurationInSeconds : Rat
  price : Rat
  currency : String
  deepLink : String
  layovers : Option (List Layover)
  direction : Option FlightDirection
deriving DecidableEq

/-- One origin/destination search task (`{ from, to }` in the source;
`from` and `to` are Lean keywords, hence `from_`, `to_`). -/
structure SearchPair where
  from_ : String
  to_ : String
deriving DecidableEq

/-- `search()` builds all airport pair combinations with an outer loop over
`flyFrom` and an inner loop over `flyTo`
(`flight-search.service.ts`, the nested `for` loops pushing `{ from, to }`). -/
def buildSearchPairs : List String → List String → List SearchPair
  | [], _ => []
  | f :: rest, flyTo => flyTo.map (fun t => { from_ := f, to_ := t }) ++ buildSearchPairs rest flyTo

/-- The recommendation strategy enum of `smart-search.service.ts` /
`schema.ts`. -/
inductive Strategy where
  | best_value
  | cheapest
  | fastest
  | most_convenient
  | flexible_combo
deriving DecidableEq

/-- `FlightRecommendation` (`smart-search.service.ts`): a reference to flights
by identifier plus link fields. -/
structure FlightRecommendation where
  outboundFlightId : String
  returnFlightId : Option String
  totalPrice : Rat
  strategy : Strategy
  confidence : Rat
  reasoning : String
  deepLink : Option String
  outboundDeepLink : Option String
  returnDeepLink : Option String
deriving DecidableEq

/-- `FlightAnalysis.priceAnalysis` (`smart-search.service.ts`). -/
structure PriceAnalysis where
  avgOutboundPrice : Rat
  avgReturnPrice : Option Rat
  isPriceGood : Bool
  priceTrend : String
deriving DecidableEq

/-- `FlightAnalysis.routeAnalysis` (`smart-search.service.ts`). -/
structure RouteAnalysis where
  bestOrigin : Option String
  originReason : Option String
  bestDestination : Option String
  destinationReason : Option String
deriving DecidableEq

/-- `FlightAnalysis.scheduleAnalysis` (`smart-search.service.ts`). -/
structure ScheduleAnalysis where
  hasGoodDirectOptions : Bool
  avgLayoverMinutes : Option Rat
  bestTimeToFly : String
deriving DecidableEq

/-- `FlightAnalysis` (`smart-search.service.ts`): an AI-produced payload that
the enrichment code carries through unchanged. -/
structure FlightAnalysis where
  marketSummary : String
  priceAnalysis : PriceAnalysis
  routeAnalysis : RouteAnalysis
  scheduleAnalysis : ScheduleAnalysis
  keyInsights : List String
  savingsTips : Option (List String)
deriving DecidableEq

/-- `FlightSearchOutput.metadata` (`smart-search.service.ts`). -/
structure SearchMetadata where
  searchedAt : String
  totalResults : Rat
  cheapestPrice : Option Rat
deriving DecidableEq

/-- Trip type, `'one-way' | 'round-trip'`. -/
inductive TripType where
  | oneWay
  | roundTrip
deriving DecidableEq

/-- `FlightSearchOutput` (`smart-search.service.ts`; structurally the output
declared by `schema.ts`): the agent output consumed both by
`executeSingleSearch` (which reads `.outbound`) and by the deep-link
enrichment. -/
structure FlightSearchOutput where
  tripType : TripType
  outbound : List FlightResult
  return_ : Option (List FlightResult)
  analysis : FlightAnalysis
  recommendation : FlightRecommendation
  alternatives : Option (List FlightRecommendation)
  metadata : SearchMetadata
deriving DecidableEq

/-- The error object of the SDK execution envelope.  Its shape (message,
code, recoverable flag) is evidenced by `test-sdk-agent.ts`, which reads
`result.error?.message`, `result.error?.code` and `result.error?.recoverable`. -/
structure SdkError where
  message : String
  code : String
  recoverable : Bool
deriving DecidableEq

/-- The usage metadata of the SDK execution envelope
(`result.meta.executionId/duration/tokensUsed/costUSD`). -/
structure SdkMeta where
  executionId : String
  duration : Nat
  tokensUsed : Nat
  costUSD : Rat
deriving DecidableEq

/-- The result envelope returned by the external SDK `execute` call
(fields read by `smart-search.service.ts` and `agents` / `part_005`). -/
structure SdkExecResult where
  success : Bool
  output : Option FlightSearchOutput
  error : Option SdkError
  meta : SdkMeta
  workflowRunId : Option String
  workflowStatus : Option String
deriving DecidableEq

/-- Outcome of one awaited call into the external SDK: either the promise
rejects (an exception is thrown) or it resolves to a result envelope. -/
inductive SdkCallOutcome where
  | throws (msg : String)
  | returns (res : SdkExecResult)

/-- A provider of per-pair search outcomes: the behaviour of the injected
`executeFlightSearch(...)` call for given
(origin, destination, departureDate, returnDate) arguments. -/
def SearchProvider := String → String → String → Option String → SdkCallOutcome

/-- The field-by-field mapping from SDK output flights to `FlightResult`
performed by `executeSingleSearch` (`flight-search.service.ts`); layovers are
rebuilt keeping only `at`, `city`, `cityCode`. -/
def mapSdkFlight (flight : FlightResult) : FlightResult :=
  { id := flight.id
    flyFrom := flight.flyFrom
    flyTo := flight.flyTo
    cityFrom := flight.cityFrom
    cityTo := flight.cityTo
    departure := flight.departure
    arrival := flight.arrival
    totalDurationInSeconds := flight.totalDurationInSeconds
    price := flight.price
    currency := flight.currency
    deepLink := flight.deepLink
    layovers := flight.layovers.map (List.map fun l =>
      { at_ := l.at_, city := l.city, cityCode := l.cityCode, durationInSeconds := none })
    direction := flight.direction }

/-- `executeSingleSearch` (`flight-search.service.ts`): one provider call per
pair; a thrown error is caught and yields `[]`; a missing success flag or
missing output yields `[]`; otherwise the output flights are mapped. -/
def executeSingleSearch (provider : SearchProvider)
    (from_ to_ date : String) (returnDate : Option String) : List FlightResult :=
  match provider from_ to_ date returnDate with
  | .throws _ => []
  | .returns res =>
    match res.output with
    | none => []
    | some out => if res.success then out.outbound.map mapSdkFlight else []

/-- The dedup key
`` `${flight.flyFrom}-${flight.flyTo}-${flight.price}-${flight.departure.local}` ``
(`flight-search.service.ts`).  JavaScript number stringification is embedded
as `toString : Rat → String` (injective, and equal on equal prices, which is
all the dedup logic relies on). -/
def uniqueKey (f : FlightResult) : String :=
  f.flyFrom ++ "-" ++ f.flyTo ++ "-" ++ toString f.price ++ "-" ++ f.departure.localTime

/-- The dedup loop of `executeDirectionalSearch`: walk the flattened per-pair
results keeping a `seenKeys` set; the first record of each key is kept and
tagged `{ ...flight, direction }`. -/
def dedupeTagGo (direction : FlightDirection) : List FlightResult → List String → List FlightResult
  | [], _ => []
  | f :: rest, seen =>
    let key := uniqueKey f
    if seen.contains key then dedupeTagGo direction rest seen
    else { f with direction := some direction } :: dedupeTagGo direction rest (key :: seen)

/-- Flatten, deduplicate and direction-tag the per-pair result lists
(the nested `for` loops of `executeDirectionalSearch` iterate the per-pair
lists in order, i.e. the flattened list, with one shared `seenKeys` set). -/
def dedupeAndTag (direction : FlightDirection) (allResults : List (List FlightResult)) :
    List FlightResult :=
  dedupeTagGo direction allResults.flatten []

/-- `flights.sort((a, b) => a.price - b.price)`: a stable ascending sort by
price (JavaScript sort is stable per ECMA-262). -/
def rankByPrice (flights : List FlightResult) : List FlightResult :=
  flights.mergeSort (fun a b => a.price ≤ b.price)

/-- `executeDirectionalSearch` (`flight-search.service.ts`): run one search
per pair, flatten, deduplicate, tag with the direction, and sort by price. -/
def executeDirectionalSearch (provider : SearchProvider)
    (pairs : List SearchPair) (date : String) (direction : FlightDirection) :
    List FlightResult :=
  let allResults := pairs.map (fun pair => executeSingleSearch provider pair.from_ pair.to_ date none)
  rankByPrice (dedupeAndTag direction allResults)

/-- The input of `FlightSearchService.search` (`types/index.ts`). -/
structure FlightSearchInput where
  flyFrom : List String
  flyTo : List String
  departureDate : String
  returnDate : Option String
deriving DecidableEq

/-- The structured response of `FlightSearchService.search`. -/
inductive FlightSearchResponse where
  | oneWay (flights : List FlightResult)
  | roundTrip (outbound : List FlightResult) (returnFlights : List FlightResult)
deriving DecidableEq

/-- The body of `FlightSearchService.search` after configuration has been
read: pair expansion, then either a single directional search (one-way) or
two independent directional searches with swapped pairs for the return leg.
`!!returnDate` is JavaScript truthiness: `undefined`, `null` and the empty
string all select the one-way branch. -/
def searchBody (provider : SearchProvider) (input : FlightSearchInput) : FlightSearchResponse :=
  let pairs := buildSearchPairs input.flyFrom input.flyTo
  match input.returnDate with
  | some rd =>
    if rd = "" then
      .oneWay (executeDirectionalSearch provider pairs input.departureDate .outbound)
    else
      .roundTrip
        (executeDirectionalSearch provider pairs input.departureDate .outbound)
        (executeDirectionalSearch provider
          (pairs.map (fun p => { from_ := p.to_, to_ := p.from_ })) rd .return_)
  | none => .oneWay (executeDirectionalSearch provider pairs input.departureDate .outbound)

/-- `FlightSearchService.search`: `getConfig()` is evaluated first and throws
a configuration error when `configure()` was never called; only then does any
search work happen.  The stored configuration carries injected tool getters
and a logger, none of which influence the embedded result, so its presence is
modelled as `Option Unit`. -/
def searchService (config : Option Unit) (provider : SearchProvider)
    (input : FlightSearchInput) : Except String FlightSearchResponse :=
  match config with
  | none => .error "[FlightSearchService] Service not configured. Call FlightSearchService.configure() first."
  | some _ => .ok (searchBody provider input)

/-- The lookup of the outbound flight inside `enrichRec`
(`smart-search.service.ts`): `allFlights.find((f) => f.id === rec.outboundFlightId)`. -/
def resolveOutbound (allFlights : List FlightResult) (rec : FlightRecommendation) :
    Option FlightResult :=
  allFlights.find? (fun f => f.id == rec.outboundFlightId)

/-- The lookup of the return flight inside `enrichRec`:
`rec.returnFlightId ? allFlights.find((f) => f.id === rec.returnFlightId) : undefined`.
JavaScript truthiness: an absent or empty `returnFlightId` skips the lookup. -/
def resolveReturn (allFlights : List FlightResult) (rec : FlightRecommendation) :
    Option FlightResult :=
  match rec.returnFlightId with
  | none => none
  | some rid => if rid = "" then none else allFlights.find? (fun f => f.id == rid)

/-- `enrichRec` (`smart-search.service.ts`): backfill link fields of one
recommendation from the resolved flights.  A recommendation already carrying
a non-empty `deepLink` is returned unchanged; with both flights resolved the
outbound, return and primary links are set; with only the outbound flight
resolved the outbound and primary links are set; otherwise the recommendation
is returned as-is. -/
def enrichRec (allFlights : List FlightResult) (rec : FlightRecommendation) :
    FlightRecommendation :=
  let outboundFlight := resolveOutbound allFlights rec
  let returnFlight := resolveReturn allFlights rec
  if (match rec.deepLink with | some s => !(s == "") | none => false) then rec
  else
    match outboundFlight, returnFlight with
    | some ob, some rf =>
      { rec with
          outboundDeepLink := some ob.deepLink
          returnDeepLink := some rf.deepLink
          deepLink := some ob.deepLink }
    | some ob, none =>
      { rec with
          outboundDeepLink := some ob.deepLink
          deepLink := some ob.deepLink }
    | none, _ => rec

/-- `enrichOutputWithDeepLinks` (`smart-search.service.ts`): enrich the
primary recommendation and, independently, every alternative, against the
combined `[...output.outbound, ...(output.return || [])]` flight list. -/
def enrichOutputWithDeepLinks (output : FlightSearchOutput) : FlightSearchOutput :=
  let allFlights := output.outbound ++ (output.return_.getD [])
  { output with
      recommendation := enrichRec allFlights output.recommendation
      alternatives := output.alternatives.map (List.map (enrichRec allFlights)) }

/-- The error object of a `SmartSearchResult` (`smart-search.service.ts`,
interface `SmartSearchResult`): only a message and a code. -/
structure SmartError where
  message : String
  code : String
deriving DecidableEq

/-- The metadata of a `SmartSearchResult`. -/
structure SmartMeta where
  executionId : String
  durationMs : Nat
  tokensUsed : Nat
  costUSD : Rat
deriving DecidableEq

/-- `SmartSearchResult` (`smart-search.service.ts`): the outcome envelope of
`smartFlightSearch`. -/
structure SmartSearchResult where
  success : Bool
  data : Option FlightSearchOutput
  error : Option SmartError
  meta : SmartMeta
  workflowRunId : Option String
  workflowStatus : Option String
deriving DecidableEq

/-- The module-level state of `smart-search.service.ts`:
`let isInitialized = false; let basePath = ''`. -/
structure SmartState where
  isInitialized : Bool
  basePath : String
deriving DecidableEq

/-- `initializeSmartSearch` (`smart-search.service.ts`): a no-op when already
initialized; otherwise registers schemas (pure plumbing, no observable state
here) and sets `basePath` to the provided option or the default derived from
`process.cwd()`. -/
def initializeSmartSearch (st : SmartState) (basePathOption : Option String)
    (defaultBasePath : String) : SmartState :=
  if st.isInitialized then st
  else { isInitialized := true, basePath := basePathOption.getD defaultBasePath }

/-- `smartFlightSearch` (`smart-search.service.ts`).  When the module is not
initialized it initializes itself (`initializeSmartSearch()` with no options)
and proceeds.  The awaited SDK `execute` call is abstracted as an
`SdkCallOutcome`; `startTime` is `Date.now()` at entry and `failTime` is
`Date.now()` inside the `catch` block.  Returns the new module state plus the
`SmartSearchResult`. -/
def smartFlightSearch (st : SmartState) (defaultBasePath : String)
    (outcome : SdkCallOutcome) (startTime failTime : Nat) :
    SmartState × SmartSearchResult :=
  let st' := if st.isInitialized then st else initializeSmartSearch st none defaultBasePath
  match outcome with
  | .throws msg =>
    (st',
      { success := false
        data := none
        error := some { message := msg, code := "EXECUTION_ERROR" }
        meta :=
          { executionId := "error-" ++ toString failTime
            durationMs := failTime - startTime
            tokensUsed := 0
            costUSD := 0 }
        workflowRunId := none
        workflowStatus := none })
  | .returns res =>
    match res.output with
    | some out =>
      if res.success then
        (st',
          { success := true
            data := some (enrichOutputWithDeepLinks out)
            error := none
            meta :=
              { executionId := res.meta.executionId
                durationMs := res.meta.duration
                tokensUsed := res.meta.tokensUsed
                costUSD := res.meta.costUSD }
            workflowRunId := res.workflowRunId
            workflowStatus := res.workflowStatus })
      else
        (st', smartFailureResult res)
    | none => (st', smartFailureResult res)
where
  /-- The `return { success: false, ... }` branch taken when
  `result.success && result.output` is falsy. -/
  smartFailureResult (res : SdkExecResult) : SmartSearchResult :=
    { success := false
      data := none
      error := some
        { message := (res.error.map SdkError.message).getD "Unknown error occurred"
          code := (res.error.map SdkError.code).getD "UNKNOWN_ERROR" }
      meta :=
        { executionId := res.meta.executionId
          durationMs := res.meta.duration
          tokensUsed := res.meta.tokensUsed
          costUSD := res.meta.costUSD }
      workflowRunId := res.workflowRunId
      workflowStatus := res.workflowStatus }

/-- Preference priority enum of `FlightSearchInputSchema` (`schema.ts`). -/
inductive Priority where
  | price
  | duration
  | convenience
deriving DecidableEq

/-- Departure time preference enum of `FlightSearchInputSchema`. -/
inductive TimePreference where
  | morning
  | afternoon
  | evening
  | any
deriving DecidableEq

/-- Raw `preferences` object before Zod defaulting. -/
structure RawPreferences where
  priority : Option Priority
  preferDirectFlights : Option Bool
  maxLayoverHours : Option Rat
  departureTimePreference : Option TimePreference
deriving DecidableEq

/-- `preferences` after Zod defaulting. -/
structure Preferences where
  priority : Priority
  preferDirectFlights : Bool
  maxLayoverHours : Rat
  departureTimePreference : TimePreference
deriving DecidableEq

/-- The raw input of the flight-search agent before validation against
`FlightSearchInputSchema` (`schema.ts`); optional/nullable fields are
`Option`. -/
structure RawFlightSearchInput where
  flyFrom : List String
  flyTo : List String
  departureDate : String
  returnDate : Option String
  maxResults : Option Rat
  currency : Option String
  preferences : Option RawPreferences
deriving DecidableEq

/-- The input after validation and defaulting. -/
structure ValidatedFlightSearchInput where
  flyFrom : List String
  flyTo : List String
  departureDate : String
  returnDate : Option String
  maxResults : Rat
  currency : String
  preferences : Option Preferences
deriving DecidableEq

/-- The `YYYY-MM-DD` check of `schema.ts`
(Zod `.regex(/^\d{4}-\d{2}-\d{2}$/)`). -/
def isDateFormat (s : String) : Bool :=
  match s.toList with
  | [a, b, c, d, h1, e, f, h2, g, h] =>
    a.isDigit && b.isDigit && c.isDigit && d.isDigit && h1 == '-' &&
    e.isDigit && f.isDigit && h2 == '-' && g.isDigit && h.isDigit
  | _ => false

/-- Zod parse of `FlightSearchInputSchema` (`schema.ts`): `flyFrom` and
`flyTo` must be non-empty (`.min(1)`), the dates must match `YYYY-MM-DD`,
`maxResults` must be an integer in `[1, 20]` (default 5), `currency` must
have length 3 (default `EUR`), preference fields receive their defaults. -/
def parseFlightSearchInput (raw : RawFlightSearchInput) :
    Except String ValidatedFlightSearchInput :=
  if raw.flyFrom.length < 1 then .error "flyFrom: Array must contain at least 1 element(s)"
  else if raw.flyTo.length < 1 then .error "flyTo: Array must contain at least 1 element(s)"
  else if !(isDateFormat raw.departureDate) then .error "departureDate: Invalid"
  else if (match raw.returnDate with
           | some rd => !(isDateFormat rd)
           | none => false) then .error "returnDate: Invalid"
  else
    match (match raw.maxResults with
           | some m =>
             if m.den ≠ 1 then Except.error "maxResults: Expected integer"
             else if m < 1 ∨ 20 < m then Except.error "maxResults: out of range"
             else Except.ok m
           | none => Except.ok (5 : Rat)) with
    | .error e => .error e
    | .ok maxResults =>
      match (match raw.currency with
             | some c =>
               if c.length ≠ 3 then Except.error "currency: Invalid length" else Except.ok c
             | none => Except.ok "EUR") with
      | .error e => .error e
      | .ok currency =>
        .ok
          { flyFrom := raw.flyFrom
            flyTo := raw.flyTo
            departureDate := raw.departureDate
            returnDate := raw.returnDate
            maxResults := maxResults
            currency := currency
            preferences :=
              raw.preferences.map fun p =>
                { priority := p.priority.getD .price
                  preferDirectFlights := p.preferDirectFlights.getD true
                  maxLayoverHours := p.maxLayoverHours.getD 4
                  departureTimePreference := p.departureTimePreference.getD .any } }

/-- Modelled from the spec: the agent runtime (the external SDK `execute`
entry, not part of this repository) validates the input against the
registered `FlightSearchInputSchema` before any search work begins, and a
validation failure rejects the operation with an invalid-input error.  The
schema itself is source (`schema.ts`); only the enforcement point is
spec-modelled. -/
def guardedFlightSearch (provider : SearchProvider) (raw : RawFlightSearchInput) :
    Except String FlightSearchResponse :=
  match parseFlightSearchInput raw with
  | .error e => .error e
  | .ok v =>
    .ok (searchBody provider
      { flyFrom := v.flyFrom
        flyTo := v.flyTo
        departureDate := v.departureDate
        returnDate := v.returnDate })

/-- A JSON value, the model of the untyped candidate records and of the
values produced by `JSON.parse`. -/
inductive Json where
  | null
  | bool (b : Bool)
  | num (q : Rat)
  | str (s : String)
  | arr (elems : List Json)
  | obj (fields : List (String × Json))

/-- Opening brace character. -/
def lbrace : Char := Char.ofNat 123

/-- Closing brace character. -/
def rbrace : Char := Char.ofNat 125

/-- JSON whitespace. -/
def isJsonWs (c : Char) : Bool :=
  c == ' ' || c == '\t' || c == '\n' || c == '\r'

/-- Skip JSON whitespace. -/
def skipWs (cs : List Char) : List Char :=
  cs.dropWhile isJsonWs

/-- Check that `lit` occurs verbatim at the start of `cs`, returning the
remainder. -/
def stripLit : List Char → List Char → Option (List Char)
  | [], cs => some cs
  | l :: ls, c :: cs => if c == l then stripLit ls cs else none
  | _ :: _, [] => none

/-- Property lookup on a JSON object (keys are unique by construction: the
parser and the property-set operation below both overwrite). -/
def lookupField (fields : List (String × Json)) (k : String) : Option Json :=
  (fields.find? (fun p => p.1 == k)).map Prod.snd

/-- JavaScript property assignment on an object: overwrite in place when the
key exists, append otherwise. -/
def setField : List (String × Json) → String → Json → List (String × Json)
  | [], k, v => [(k, v)]
  | (k', v') :: rest, k, v =>
    if k' == k then (k, v) :: rest else (k', v') :: setField rest k v

/-- Decimal digits to a natural number. -/
def digitsToNat (ds : List Char) : Nat :=
  ds.foldl (fun acc c => acc * 10 + (c.toNat - 48)) 0

/-- Hexadecimal digit test. -/
def isHexDigitChar (c : Char) : Bool :=
  c.isDigit || ('a' ≤ c && c ≤ 'f') || ('A' ≤ c && c ≤ 'F')

/-- Hexadecimal digit value. -/
def hexVal (c : Char) : Nat :=
  if c.isDigit then c.toNat - 48
  else if 'a' ≤ c && c ≤ 'f' then c.toNat - 87
  else c.toNat - 55

/-- Single-character JSON string escapes. -/
def escapeChar : Char → Option Char
  | 'n' => some (Char.ofNat 10)
  | 't' => some (Char.ofNat 9)
  | 'r' => some (Char.ofNat 13)
  | 'b' => some (Char.ofNat 8)
  | 'f' => some (Char.ofNat 12)
  | '"' => some '"'
  | '\\' => some '\\'
  | '/' => some '/'
  | _ => none

/-- Parse the body of a JSON string after the opening quote, returning the
decoded characters and the remainder after the closing quote.  Surrogate
`\uXXXX` escapes outside the valid scalar range decode to `U+0000` (a benign
abstraction of JavaScript UTF-16 code units, unreachable in this
development). -/
def parseStringBody : Nat → List Char → Option (List Char × List Char)
  | 0, _ => none
  | _ + 1, [] => none
  | fuel + 1, c :: rest =>
    if c == '"' then some ([], rest)
    else if c == '\\' then
      match rest with
      | [] => none
      | e :: r2 =>
        if e == 'u' then
          match r2 with
          | h1 :: h2 :: h3 :: h4 :: r3 =>
            if isHexDigitChar h1 && isHexDigitChar h2 && isHexDigitChar h3 && isHexDigitChar h4 then
              (parseStringBody fuel r3).map fun pr =>
                (Char.ofNat (hexVal h1 * 4096 + hexVal h2 * 256 + hexVal h3 * 16 + hexVal h4) :: pr.1, pr.2)
            else none
          | _ => none
        else
          match escapeChar e with
          | some ec => (parseStringBody fuel r2).map fun pr => (ec :: pr.1, pr.2)
          | none => none
    else if c.toNat < 32 then none
    else (parseStringBody fuel rest).map fun pr => (c :: pr.1, pr.2)

/-- Parse a JSON number literal at the head of `cs`
(`-?(0|[1-9][0-9]*)(\.[0-9]+)?([eE][+-]?[0-9]+)?`), as an exact rational. -/
def parseNumberLit (cs : List Char) : Option (Rat × List Char) :=
  let (neg, cs1) :=
    match cs with
    | '-' :: t => (true, t)
    | _ => (false, cs)
  let intDigits := cs1.takeWhile Char.isDigit
  let cs2 := cs1.dropWhile Char.isDigit
  if intDigits.isEmpty then none
  else if intDigits.length > 1 && intDigits.head? == some '0' then none
  else
    let intPart : Rat := (digitsToNat intDigits : Nat)
    let fracStep : Option (Rat × List Char) :=
      match cs2 with
      | '.' :: cs3 =>
        let fracDigits := cs3.takeWhile Char.isDigit
        if fracDigits.isEmpty then none
        else some (intPart + (digitsToNat fracDigits : Rat) / ((10 : Rat) ^ fracDigits.length),
          cs3.dropWhile Char.isDigit)
      | _ => some (intPart, cs2)
    match fracStep with
    | none => none
    | some (mant, cs4) =>
      let expStep : Option (Rat × List Char) :=
        match cs4 with
        | e :: cs5 =>
          if e == 'e' || e == 'E' then
            let (eneg, cs6) :=
              match cs5 with
              | '+' :: t => (false, t)
              | '-' :: t => (true, t)
              | _ => (false, cs5)
            let expDigits := cs6.takeWhile Char.isDigit
            if expDigits.isEmpty then none
            else
              let p : Rat := (10 : Rat) ^ digitsToNat expDigits
              some (if eneg then mant / p else mant * p, cs6.dropWhile Char.isDigit)
          else some (mant, cs4)
        | [] => some (mant, cs4)
      match expStep with
      | none => none
      | some (q, rest) => some (if neg then -q else q, rest)

mutual

/-- Parse one JSON value (after optional leading whitespace), returning the
value and the remaining input; `none` models a `SyntaxError` thrown by
`JSON.parse`.  Fuel-indexed for termination; every caller supplies ample
fuel. -/
def parseValue : Nat → List Char → Option (Json × List Char)
  | 0, _ => none
  | fuel + 1, cs =>
    match skipWs cs with
    | [] => none
    | c :: rest =>
      if c == 'n' then (stripLit "ull".toList rest).map fun r => (Json.null, r)
      else if c == 't' then (stripLit "rue".toList rest).map fun r => (Json.bool true, r)
      else if c == 'f' then (stripLit "alse".toList rest).map fun r => (Json.bool false, r)
      else if c == '"' then
        (parseStringBody (rest.length + 1) rest).map fun pr => (Json.str (String.mk pr.1), pr.2)
      else if c == '[' then
        match skipWs rest with
        | ']' :: r2 => some (Json.arr [], r2)
        | _ => (parseElements fuel rest).map fun pr => (Json.arr pr.1, pr.2)
      else if c == lbrace then
        match skipWs rest with
        | x :: r2 =>
          if x == rbrace then some (Json.obj [], r2)
          else (parseMembers fuel rest []).map fun pr => (Json.obj pr.1, pr.2)
        | [] => none
      else if c == '-' || c.isDigit then
        (parseNumberLit (c :: rest)).map fun pr => (Json.num pr.1, pr.2)
      else none

/-- Parse `value (, value)* ]` (a non-empty bracket-delimited tail). -/
def parseElements : Nat → List Char → Option (List Json × List Char)
  | 0, _ => none
  | fuel + 1, cs =>
    match parseValue fuel cs with
    | none => none
    | some (v, r) =>
      match skipWs r with
      | ',' :: r2 => (parseElements fuel r2).map fun pr => (v :: pr.1, pr.2)
      | ']' :: r2 => some ([v], r2)
      | _ => none

/-- Parse `"key" : value (, "key" : value)* RBRACE` accumulating fields with
overwrite semantics (later duplicate keys win, as in JavaScript). -/
def parseMembers : Nat → List Char → List (String × Json) →
    Option (List (String × Json) × List Char)
  | 0, _, _ => none
  | fuel + 1, cs, acc =>
    match skipWs cs with
    | [] => none
    | q :: r =>
      if q == '"' then
        match parseStringBody (r.length + 1) r with
        | none => none
        | some (k, r2) =>
          match skipWs r2 with
          | ':' :: r3 =>
            match parseValue fuel r3 with
            | none => none
            | some (v, r4) =>
              let acc2 := setField acc (String.mk k) v
              match skipWs r4 with
              | ',' :: r5 => parseMembers fuel r5 acc2
              | x :: r5 => if x == rbrace then some (acc2, r5) else none
              | [] => none
          | _ => none
      else none

end

/-- `JSON.parse`: parse a complete JSON document (one value surrounded by
optional whitespace); `none` models a thrown `SyntaxError`. -/
def jsonParse (s : String) : Option Json :=
  match parseValue (4 * (s.length + 1)) s.toList with
  | some (v, rest) => if (skipWs rest).isEmpty then some v else none
  | none => none

mutual

/-- JavaScript template-literal stringification `` `${v}` `` of a JSON value.
Number printing is abstracted by `toString : Rat → String` (injective, which
is the only property relied on); arrays stringify as their elements joined
with commas; objects as `[object Object]`. -/
def jsToStringVal : Json → String
  | .null => "null"
  | .bool true => "true"
  | .bool false => "false"
  | .num q => toString q
  | .str s => s
  | .arr xs => String.intercalate "," (jsArrayElems xs)
  | .obj _ => "[object Object]"

/-- `Array.prototype.join`: `null` elements become the empty string. -/
def jsArrayElems : List Json → List String
  | [] => []
  | v :: vs =>
    (match v with
     | .null => ""
     | w => jsToStringVal w) :: jsArrayElems vs

end

/-- `` `${rawFlight.f}` `` for a possibly-absent property: `undefined`
stringifies to `"undefined"`. -/
def jsFieldString (fields : List (String × Json)) (k : String) : String :=
  match lookupField fields k with
  | none => "undefined"
  | some v => jsToStringVal v

/-- JavaScript truthiness test of `!rawFlight.id`. -/
def isFalsyField : Option Json → Bool
  | none => true
  | some .null => true
  | some (.bool b) => !b
  | some (.num q) => q == 0
  | some (.str s) => s == ""
  | some (.arr _) => false
  | some (.obj _) => false

/-- UTF-8 encoding of one character (`Buffer.from(str)` uses UTF-8). -/
def utf8Char (c : Char) : List Nat :=
  let n := c.toNat
  if n < 128 then [n]
  else if n < 2048 then [192 + n / 64, 128 + n % 64]
  else if n < 65536 then [224 + n / 4096, 128 + (n / 64) % 64, 128 + n % 64]
  else [240 + n / 262144, 128 + (n / 4096) % 64, 128 + (n / 64) % 64, 128 + n % 64]

/-- UTF-8 encoding of a string as a byte list. -/
def utf8Bytes (s : String) : List Nat :=
  (s.toList.map utf8Char).flatten

/-- The standard base64 alphabet. -/
def base64Alphabet : List Char :=
  "ABCDEFGHIJKLMNOPQRSTUVWXYZabcdefghijklmnopqrstuvwxyz0123456789+/".toList

/-- Symbol-to-character table of base64. -/
def b64Char (n : Nat) : Char :=
  base64Alphabet.getD n 'A'

/-- `Buffer.toString('base64')`: standard base64 with `=` padding. -/
def base64Encode : List Nat → List Char
  | [] => []
  | [b1] => [b64Char (b1 / 4), b64Char (b1 % 4 * 16), '=', '=']
  | [b1, b2] => [b64Char (b1 / 4), b64Char (b1 % 4 * 16 + b2 / 16), b64Char (b2 % 16 * 4), '=']
  | b1 :: b2 :: b3 :: rest =>
    b64Char (b1 / 4) :: b64Char (b1 % 4 * 16 + b2 / 16) ::
      b64Char (b2 % 16 * 4 + b3 / 64) :: b64Char (b3 % 64) :: base64Encode rest

/-- `.replace(/[+/=]/g, '')`: delete the reserved characters. -/
def stripReserved (cs : List Char) : List Char :=
  cs.filter (fun c => !(c == '+' || c == '/' || c == '='))

/-- Decimal rendering of a natural number (the JavaScript stringification of
the non-negative integers `flightIndex` and `Date.now()`). -/
def natDecimalChars (n : Nat) : List Char :=
  if _ : n < 10 then [Char.ofNat (48 + n)]
  else natDecimalChars (n / 10) ++ [Char.ofNat (48 + n % 10)]
termination_by n
decreasing_by exact Nat.div_lt_self (by omega) (by omega)

/-- Decimal rendering as a string. -/
def natDecimal (n : Nat) : String := String.mk (natDecimalChars n)

/-- The synthetic identifier of `parseAndValidateResults`
(`flight-search.service.ts`):
`` kiwi-${base64(`${flyFrom}-${flyTo}-${price}-${flightIndex}-${Date.now()}`) without +/= } ``.
`Date.now()` is modelled as the batch-local timestamp `ts`. -/
def synthesizeId (fields : List (String × Json)) (idx ts : Nat) : String :=
  let uniqueStr :=
    jsFieldString fields "flyFrom" ++ "-" ++ jsFieldString fields "flyTo" ++ "-" ++
      jsFieldString fields "price" ++ "-" ++ natDecimal idx ++ "-" ++ natDecimal ts
  "kiwi-" ++ String.mk (stripReserved (base64Encode (utf8Bytes uniqueStr)))

/-- A layover of the `FlightResultSchema` in `types/index.ts`
(`{ at, city, cityCode?, arrival?, departure? }`). -/
structure V1Layover where
  at_ : String
  city : String
  cityCode : Option String
  arrival : Option TimePair
  departure : Option TimePair
deriving DecidableEq

/-- A validated flight record per the Zod `FlightResultSchema` in
`types/index.ts` (`id` is `z.string().optional()`). -/
structure V1FlightResult where
  id : Option String
  flyFrom : String
  flyTo : String
  cityFrom : String
  cityTo : String
  departure : TimePair
  arrival : TimePair
  totalDurationInSeconds : Rat
  durationInSeconds : Option Rat
  price : Rat
  currency : String
  deepLink : String
  layovers : Option (List V1Layover)
deriving DecidableEq

/-- `z.string()` on a required field. -/
def zodString (fields : List (String × Json)) (k : String) : Option String :=
  match lookupField fields k with
  | some (.str s) => some s
  | _ => none

/-- `z.string().optional()`: absent passes as `none`; present non-strings
(including `null`) fail. -/
def zodOptString (fields : List (String × Json)) (k : String) : Option (Option String) :=
  match lookupField fields k with
  | none => some none
  | some (.str s) => some (some s)
  | some _ => none

/-- `z.number()` on a required field. -/
def zodNumber (fields : List (String × Json)) (k : String) : Option Rat :=
  match lookupField fields k with
  | some (.num q) => some q
  | _ => none

/-- `z.number().optional()`. -/
def zodOptNumber (fields : List (String × Json)) (k : String) : Option (Option Rat) :=
  match lookupField fields k with
  | none => some none
  | some (.num q) => some (some q)
  | some _ => none

/-- `z.object({ utc: z.string(), local: z.string() })`. -/
def zodTimePair (j : Json) : Option TimePair :=
  match j with
  | .obj fields => do
    let utc ← zodString fields "utc"
    let l ← zodString fields "local"
    pure { utc := utc, localTime := l }
  | _ => none

/-- A required time-pair field. -/
def zodTimePairField (fields : List (String × Json)) (k : String) : Option TimePair :=
  match lookupField fields k with
  | some j => zodTimePair j
  | none => none

/-- An optional time-pair field. -/
def zodOptTimePairField (fields : List (String × Json)) (k : String) :
    Option (Option TimePair) :=
  match lookupField fields k with
  | none => some none
  | some j => (zodTimePair j).map some

/-- One layover item of the `types/index.ts` schema. -/
def zodV1Layover (j : Json) : Option V1Layover :=
  match j with
  | .obj fields => do
    let at_ ← zodString fields "at"
    let city ← zodString fields "city"
    let cityCode ← zodOptString fields "cityCode"
    let arrival ← zodOptTimePairField fields "arrival"
    let departure ← zodOptTimePairField fields "departure"
    pure { at_ := at_, city := city, cityCode := cityCode, arrival := arrival,
           departure := departure }
  | _ => none

/-- Traverse a list of layover items. -/
def zodV1Layovers : List Json → Option (List V1Layover)
  | [] => some []
  | j :: rest => do
    let l ← zodV1Layover j
    let ls ← zodV1Layovers rest
    pure (l :: ls)

/-- `FlightResultSchema.parse` (`types/index.ts`): validate one candidate
into a `V1FlightResult`; `none` models a thrown `ZodError`.  Unknown keys are
stripped (Zod default); `currency` defaults to `EUR`. -/
def zodParseFlightResult (j : Json) : Option V1FlightResult :=
  match j with
  | .obj fields => do
    let id ← zodOptString fields "id"
    let flyFrom ← zodString fields "flyFrom"
    let flyTo ← zodString fields "flyTo"
    let cityFrom ← zodString fields "cityFrom"
    let cityTo ← zodString fields "cityTo"
    let departure ← zodTimePairField fields "departure"
    let arrival ← zodTimePairField fields "arrival"
    let totalDurationInSeconds ← zodNumber fields "totalDurationInSeconds"
    let durationInSeconds ← zodOptNumber fields "durationInSeconds"
    let price ← zodNumber fields "price"
    let currency ←
      match lookupField fields "currency" with
      | none => some "EUR"
      | some (.str s) => some s
      | some _ => none
    let deepLink ← zodString fields "deepLink"
    let layovers ←
      match lookupField fields "layovers" with
      | none => some none
      | some (.arr items) => (zodV1Layovers items).map some
      | some _ => none
    pure
      { id := id, flyFrom := flyFrom, flyTo := flyTo, cityFrom := cityFrom,
        cityTo := cityTo, departure := departure, arrival := arrival,
        totalDurationInSeconds := totalDurationInSeconds,
        durationInSeconds := durationInSeconds, price := price,
        currency := currency, deepLink := deepLink, layovers := layovers }
  | _ => none

/-- The validation loop of `parseAndValidateResults`: for each candidate, a
falsy `id` on an object candidate is replaced by a synthetic identifier;
`flightIndex` increments for every candidate on which the property access
and assignment succeed (objects and arrays); primitive candidates throw a
`TypeError` on the strict-mode property access/assignment and are skipped by
the `catch` without incrementing; each surviving candidate is Zod-validated
and silently dropped on failure (arrays always fail `z.object`). -/
def validateFlightsGo (ts : Nat) : List Json → Nat → List V1FlightResult
  | [], _ => []
  | c :: rest, idx =>
    match c with
    | .obj fields =>
      let fields2 :=
        if isFalsyField (lookupField fields "id") then
          setField fields "id" (.str (synthesizeId fields idx ts))
        else fields
      match zodParseFlightResult (.obj fields2) with
      | some v => v :: validateFlightsGo ts rest (idx + 1)
      | none => validateFlightsGo ts rest (idx + 1)
    | .arr _ => validateFlightsGo ts rest (idx + 1)
    | _ => validateFlightsGo ts rest idx

/-- Validate a batch of candidates (index counter starting at 0). -/
def validateFlights (ts : Nat) (flights : List Json) : List V1FlightResult :=
  validateFlightsGo ts flights 0

/-- The synthetic identifiers assigned by `validateFlightsGo`, in batch
order: exactly the ids written into object candidates whose `id` was falsy,
with the same `flightIndex` bookkeeping. -/
def assignedIdsGo (ts : Nat) : List Json → Nat → List String
  | [], _ => []
  | c :: rest, idx =>
    match c with
    | .obj fields =>
      if isFalsyField (lookupField fields "id") then
        synthesizeId fields idx ts :: assignedIdsGo ts rest (idx + 1)
      else assignedIdsGo ts rest (idx + 1)
    | .arr _ => assignedIdsGo ts rest (idx + 1)
    | _ => assignedIdsGo ts rest idx

/-- The synthetic identifiers assigned within one batch. -/
def assignedIds (ts : Nat) (flights : List Json) : List String :=
  assignedIdsGo ts flights 0

/-- Index of the first character satisfying a predicate. -/
def firstIdxAux (p : Char → Bool) : List Char → Option Nat
  | [] => none
  | c :: rest => if p c then some 0 else (firstIdxAux p rest).map (· + 1)

/-- Index of the first occurrence of a character. -/
def firstIdxOf (c : Char) (cs : List Char) : Option Nat :=
  firstIdxAux (· == c) cs

/-- Index of the last occurrence of a character. -/
def lastIdxOf (c : Char) (cs : List Char) : Option Nat :=
  (firstIdxAux (· == c) cs.reverse).map (fun k => cs.length - 1 - k)

/-- The match of `response.match(/\[.*\]/s)`: with the dot-all flag and a
greedy `.*`, the regex matches iff the first `[` occurs before the last `]`,
and the match is the whole span between them (leftmost start, longest
extent). -/
def regexArraySpan (cs : List Char) : Option (List Char) :=
  match firstIdxOf '[' cs, lastIdxOf ']' cs with
  | some i, some j => if i < j then some ((cs.drop i).take (j - i + 1)) else none
  | _, _ => none

/-- The free-text fallback of `parseAndValidateResults`
(`flight-search.service.ts` lines 177-187): take the regex match, `JSON.parse`
it inside a `try` whose `catch` is empty; a missing match or a parse error
leaves the candidate list empty.  (A span starting with `[` can only parse to
an array, so the non-array branch is unreachable.) -/
def parseFallbackFlights (response : String) : List Json :=
  match regexArraySpan response.toList with
  | none => []
  | some span =>
    match jsonParse (String.mk span) with
    | some (.arr xs) => xs
    | _ => []

/-- `parseAndValidateResults` (`flight-search.service.ts`): candidates come
from the step-trace extraction (here a parameter, as the other
response-shape branch); when that yields nothing the free-text fallback is
tried; then every candidate is validated with synthetic-id fallback. -/
def parseAndValidateResults (stepsFlights : List Json) (response : String) (ts : Nat) :
    List V1FlightResult :=
  let flights := if stepsFlights.isEmpty then parseFallbackFlights response else stepsFlights
  validateFlights ts flights

/-- Modelled from the spec wording, for comparison with the code: locate the
first JSON array literal embedded in the free text (the earliest position at
which a complete array literal can be parsed) and return its elements. -/
def findFirstArrayLiteral : List Char → Option (List Json)
  | [] => none
  | c :: rest =>
    if c == '[' then
      match parseValue (4 * (rest.length + 2)) (c :: rest) with
      | some (.arr xs, _) => some xs
      | _ => findFirstArrayLiteral rest
    else findFirstArrayLiteral rest

/-! ## Helper lemmas -/

theorem buildSearchPairs_length (flyFrom flyTo : List String) :
    (buildSearchPairs flyFrom flyTo).length = flyFrom.length * flyTo.length := by
  induction flyFrom with
  | nil => simp [buildSearchPairs]
  | cons f rest ih =>
    simp [buildSearchPairs, ih]
    ring

theorem buildSearchPairs_mem (flyFrom flyTo : List String) :
    ∀ p ∈ buildSearchPairs flyFrom flyTo, p.from_ ∈ flyFrom ∧ p.to_ ∈ flyTo := by
  induction flyFrom with
  | nil => simp [buildSearchPairs]
  | cons f rest ih =>
    intro p hp
    rw [buildSearchPairs, List.mem_append] at hp
    rcases hp with hp | hp
    · rcases List.mem_map.mp hp with ⟨t, ht, rfl⟩
      exact ⟨by simp, by simp [ht]⟩
    · rcases ih p hp with ⟨h1, h2⟩
      exact ⟨List.mem_cons_of_mem _ h1, h2⟩

theorem buildSearchPairs_getElem (flyFrom flyTo : List String) :
    ∀ i j (_ : i < flyFrom.length) (hj : j < flyTo.length),
      (buildSearchPairs flyFrom flyTo)[i * flyTo.length + j]? =
        some { from_ := flyFrom[i], to_ := flyTo[j] } := by
  induction flyFrom with
  | nil => intro i j hi hj; simp at hi
  | cons f rest ih =>
    intro i j hi hj
    cases i with
    | zero =>
      rw [buildSearchPairs]
      rw [show 0 * flyTo.length + j = j by omega]
      rw [List.getElem?_append]
      simp [hj]
    | succ i =>
      rw [buildSearchPairs]
      have hlen : (flyTo.map (fun t => ({ from_ := f, to_ := t } : SearchPair))).length
          = flyTo.length := by simp
      have harith : (i + 1) * flyTo.length + j = flyTo.length + (i * flyTo.length + j) := by
        ring
      rw [harith, List.getElem?_append_right (by omega)]
      rw [hlen]
      rw [show flyTo.length + (i * flyTo.length + j) - flyTo.length = i * flyTo.length + j
        by omega]
      exact ih i j (by simpa using hi) hj

theorem parse_error_of_empty (raw : RawFlightSearchInput)
    (h : raw.flyFrom = [] ∨ raw.flyTo = []) :
    ∃ e, parseFlightSearchInput raw = .error e := by
  rcases h with h | h
  · exact ⟨"flyFrom: Array must contain at least 1 element(s)",
      by simp [parseFlightSearchInput, h]⟩
  · cases hf : raw.flyFrom with
    | nil => exact ⟨"flyFrom: Array must contain at least 1 element(s)",
        by simp [parseFlightSearchInput, hf]⟩
    | cons a as => exact ⟨"flyTo: Array must contain at least 1 element(s)",
        by simp [parseFlightSearchInput, hf, h]⟩

theorem guarded_error_of_empty (raw : RawFlightSearchInput)
    (h : raw.flyFrom = [] ∨ raw.flyTo = []) (provider₁ provider₂ : SearchProvider) :
    (∃ e, guardedFlightSearch provider₁ raw = .error e) ∧
    guardedFlightSearch provider₁ raw = guardedFlightSearch provider₂ raw := by
  rcases parse_error_of_empty raw h with ⟨e, he⟩
  constructor
  · exact ⟨e, by simp [guardedFlightSearch, he]⟩
  · simp [guardedFlightSearch, he]

theorem uniqueKey_tag (f : FlightResult) (d : FlightDirection) :
    uniqueKey { f with direction := some d } = uniqueKey f := rfl

theorem mem_dedupeTagGo_key_not_seen (dir : FlightDirection) :
    ∀ (l : List FlightResult) (seen : List String) (g : FlightResult),
      g ∈ dedupeTagGo dir l seen → seen.contains (uniqueKey g) = false := by
  intro l
  induction l with
  | nil => intro seen g hg; simp [dedupeTagGo] at hg
  | cons f rest ih =>
    intro seen g hg
    rw [dedupeTagGo] at hg
    by_cases hc : seen.contains (uniqueKey f)
    · rw [if_pos hc] at hg
      exact ih seen g hg
    · rw [if_neg hc] at hg
      rcases List.mem_cons.mp hg with rfl | hg
      · simpa [uniqueKey_tag] using hc
      · have := ih (uniqueKey f :: seen) g hg
        simp only [List.contains_cons, Bool.or_eq_false_iff] at this
        exact this.2

theorem dedupeTagGo_pairwise_keys (dir : FlightDirection) :
    ∀ (l : List FlightResult) (seen : List String),
      (dedupeTagGo dir l seen).Pairwise (fun a b => uniqueKey a ≠ uniqueKey b) := by
  intro l
  induction l with
  | nil => intro seen; simp [dedupeTagGo]
  | cons f rest ih =>
    intro seen
    rw [dedupeTagGo]
    by_cases hc : seen.contains (uniqueKey f)
    · rw [if_pos hc]; exact ih seen
    · rw [if_neg hc]
      refine List.Pairwise.cons ?_ (ih _)
      intro g hg hk
      have := mem_dedupeTagGo_key_not_seen dir rest (uniqueKey f :: seen) g hg
      rw [uniqueKey_tag] at hk
      simp [← hk] at this

theorem dedupeTagGo_key_represented (dir : FlightDirection) :
    ∀ (l : List FlightResult) (seen : List String) (f : FlightResult),
      f ∈ l → seen.contains (uniqueKey f) = false →
      ∃ g ∈ dedupeTagGo dir l seen, uniqueKey g = uniqueKey f := by
  intro l
  induction l with
  | nil => intro seen f hf; simp at hf
  | cons f0 rest ih =>
    intro seen f hf hns
    rw [dedupeTagGo]
    rcases List.mem_cons.mp hf with rfl | hf
    · rw [if_neg (by rw [hns]; simp)]
      exact ⟨_, List.mem_cons_self _ _, uniqueKey_tag f dir⟩
    · by_cases hc : seen.contains (uniqueKey f0)
      · rw [if_pos hc]
        exact ih seen f hf hns
      · rw [if_neg hc]
        by_cases hkey : uniqueKey f = uniqueKey f0
        · exact ⟨_, List.mem_cons_self _ _, (uniqueKey_tag f0 dir).trans hkey.symm⟩
        · have hns2 : (uniqueKey f0 :: seen).contains (uniqueKey f) = false := by
            simp only [List.contains_cons, hns, Bool.or_false]
            exact beq_eq_false_iff_ne.mpr hkey
          rcases ih (uniqueKey f0 :: seen) f hf hns2 with ⟨g, hg, hgk⟩
          exact ⟨g, List.mem_cons_of_mem _ hg, hgk⟩

theorem dedupeTagGo_source (dir : FlightDirection) :
    ∀ (l : List FlightResult) (seen : List String) (g : FlightResult),
      g ∈ dedupeTagGo dir l seen → ∃ f ∈ l, g = { f with direction := some dir } := by
  intro l
  induction l with
  | nil => intro seen g hg; simp [dedupeTagGo] at hg
  | cons f rest ih =>
    intro seen g hg
    rw [dedupeTagGo] at hg
    by_cases hc : seen.contains (uniqueKey f)
    · rw [if_pos hc] at hg
      rcases ih seen g hg with ⟨f', hf', rfl⟩
      exact ⟨f', List.mem_cons_of_mem _ hf', rfl⟩
    · rw [if_neg hc] at hg
      rcases List.mem_cons.mp hg with rfl | hg
      · exact ⟨f, List.mem_cons_self _ _, rfl⟩
      · rcases ih _ g hg with ⟨f', hf', rfl⟩
        exact ⟨f', List.mem_cons_of_mem _ hf', rfl⟩

theorem dedupeTagGo_first_occurrence (dir : FlightDirection) :
    ∀ (l : List FlightResult) (seen : List String) (g : FlightResult),
      g ∈ dedupeTagGo dir l seen →
      ∃ l₁ f l₂, l = l₁ ++ f :: l₂ ∧ g = { f with direction := some dir } ∧
        (∀ f' ∈ l₁, uniqueKey f' ≠ uniqueKey f) ∧ seen.contains (uniqueKey f) = false := by
  intro l
  induction l with
  | nil => intro seen g hg; simp [dedupeTagGo] at hg
  | cons f0 rest ih =>
    intro seen g hg
    rw [dedupeTagGo] at hg
    by_cases hc : seen.contains (uniqueKey f0)
    · rw [if_pos hc] at hg
      rcases ih seen g hg with ⟨l₁, f, l₂, rfl, hgf, hl₁, hns⟩
      refine ⟨f0 :: l₁, f, l₂, rfl, hgf, ?_, hns⟩
      intro f' hf'
      rcases List.mem_cons.mp hf' with rfl | hf'
      · intro hk
        rw [hk] at hc
        rw [hc] at hns
        exact absurd hns (by simp)
      · exact hl₁ f' hf'
    · rw [if_neg hc] at hg
      rcases List.mem_cons.mp hg with rfl | hg
      · exact ⟨[], f0, rest, rfl, rfl, by simp, by simpa using hc⟩
      · rcases ih _ g hg with ⟨l₁, f, l₂, rfl, hgf, hl₁, hns⟩
        simp only [List.contains_cons, Bool.or_eq_false_iff] at hns
        refine ⟨f0 :: l₁, f, l₂, rfl, hgf, ?_, hns.2⟩
        intro f' hf'
        rcases List.mem_cons.mp hf' with rfl | hf'
        · intro hk
          have := hns.1
          rw [hk] at this
          simp at this
        · exact hl₁ f' hf'

theorem dedupeTagGo_retains_first (dir : FlightDirection) :
    ∀ (l₁ : List FlightResult) (f : FlightResult) (l₂ : List FlightResult) (seen : List String),
      (∀ f' ∈ l₁, uniqueKey f' ≠ uniqueKey f) → seen.contains (uniqueKey f) = false →
      ({ f with direction := some dir }) ∈ dedupeTagGo dir (l₁ ++ f :: l₂) seen := by
  intro l₁
  induction l₁ with
  | nil =>
    intro f l₂ seen _ hns
    rw [List.nil_append, dedupeTagGo, if_neg (by rw [hns]; simp)]
    exact List.mem_cons_self _ _
  | cons a l₁ ih =>
    intro f l₂ seen hl hns
    rw [List.cons_append, dedupeTagGo]
    by_cases hc : seen.contains (uniqueKey a)
    · rw [if_pos hc]
      exact ih f l₂ seen (fun f' hf' => hl f' (List.mem_cons_of_mem _ hf')) hns
    · rw [if_neg hc]
      refine List.mem_cons_of_mem _
        (ih f l₂ _ (fun f' hf' => hl f' (List.mem_cons_of_mem _ hf')) ?_)
      simp only [List.contains_cons, hns, Bool.or_false]
      exact beq_eq_false_iff_ne.mpr (fun h => hl a (List.mem_cons_self _ _) h.symm)

theorem uniqueKey_congr (g₁ g₂ : FlightResult)
    (h1 : g₁.flyFrom = g₂.flyFrom) (h2 : g₁.flyTo = g₂.flyTo) (h3 : g₁.price = g₂.price)
    (h4 : g₁.departure.localTime = g₂.departure.localTime) :
    uniqueKey g₁ = uniqueKey g₂ := by
  unfold uniqueKey
  rw [h1, h2, h3, h4]

theorem firstIdxAux_append (p : Char → Bool) (pre : List Char) (x : Char)
    (rest : List Char) (hpre : ∀ a ∈ pre, p a = false) (hx : p x = true) :
    firstIdxAux p (pre ++ x :: rest) = some pre.length := by
  induction pre with
  | nil => simp [firstIdxAux, hx]
  | cons a l ih =>
    have ha := hpre a (List.mem_cons_self _ _)
    rw [List.cons_append, firstIdxAux, if_neg (by simp [ha]),
      ih (fun b hb => hpre b (List.mem_cons_of_mem _ hb))]
    rfl

theorem firstIdxAux_some (p : Char → Bool) :
    ∀ (l : List Char) (k : Nat), firstIdxAux p l = some k →
      ∃ h : k < l.length, p (l[k]) = true := by
  intro l
  induction l with
  | nil => intro k hk; simp [firstIdxAux] at hk
  | cons c rest ih =>
    intro k hk
    rw [firstIdxAux] at hk
    by_cases hc : p c
    · rw [if_pos hc] at hk
      cases hk
      exact ⟨by simp, hc⟩
    · rw [if_neg hc] at hk
      cases hfa : firstIdxAux p rest with
      | none => rw [hfa] at hk; simp at hk
      | some k' =>
        rw [hfa] at hk
        simp only [Option.map_some'] at hk
        cases hk
        rcases ih k' hfa with ⟨h, hp⟩
        exact ⟨Nat.succ_lt_succ h, by simpa using hp⟩

theorem regexArraySpan_of_decomp (pre mid post : List Char)
    (hpre : '[' ∉ pre) (hpost : ']' ∉ post) :
    regexArraySpan (pre ++ '[' :: (mid ++ ']' :: post)) =
      some ('[' :: (mid ++ [']'])) := by
  have hfirst : firstIdxOf '[' (pre ++ '[' :: (mid ++ ']' :: post)) = some pre.length := by
    apply firstIdxAux_append
    · intro a ha
      refine beq_eq_false_iff_ne.mpr (fun h => hpre ?_)
      rw [← h]
      exact ha
    · simp
  have hrev : (pre ++ '[' :: (mid ++ ']' :: post)).reverse =
      post.reverse ++ ']' :: (mid.reverse ++ '[' :: pre.reverse) := by
    simp [List.reverse_append, List.append_assoc]
  have hlen : (pre ++ '[' :: (mid ++ ']' :: post)).length =
      pre.length + (mid.length + (post.length + 2)) := by
    simp only [List.length_append, List.length_cons]
    omega
  have hlast : lastIdxOf ']' (pre ++ '[' :: (mid ++ ']' :: post)) =
      some (pre.length + mid.length + 1) := by
    unfold lastIdxOf
    rw [hrev, firstIdxAux_append _ post.reverse _ _
      (fun a ha => beq_eq_false_iff_ne.mpr
        (fun h => hpost (List.mem_reverse.mp (by rw [← h]; exact ha)))) (by simp)]
    simp only [Option.map_some', List.length_reverse]
    congr 1
    rw [hlen]
    omega
  simp only [regexArraySpan, hfirst, hlast]
  rw [if_pos (by omega)]
  congr 1
  rw [List.drop_left]
  rw [show pre.length + mid.length + 1 - pre.length + 1 = mid.length + 2 by omega]
  rw [List.take_cons (by omega)]
  congr 1
  rw [show mid.length + 2 - 1 = mid.length + 1 by omega]
  rw [List.take_append_eq_append_take]
  rw [List.take_of_length_le (by omega)]
  congr 1
  rw [show mid.length + 1 - mid.length = 1 by omega]
  rfl

theorem exists_decomp_of_span (resp span : List Char)
    (h : regexArraySpan resp = some span) :
    ∃ pre mid post, resp = pre ++ '[' :: (mid ++ ']' :: post) := by
  unfold regexArraySpan at h
  cases hf : firstIdxOf '[' resp with
  | none => rw [hf] at h; simp at h
  | some i =>
    cases hl : lastIdxOf ']' resp with
    | none => rw [hf, hl] at h; simp at h
    | some j =>
      rw [hf, hl] at h
      by_cases hij : i < j
      · rcases firstIdxAux_some _ resp i hf with ⟨hi, hpi⟩
        have hri : resp[i] = '[' := by
          simpa using hpi
        have hj : ∃ hjl : j < resp.length, resp[j] = ']' := by
          unfold lastIdxOf at hl
          cases hk : firstIdxAux (· == ']') resp.reverse with
          | none => rw [hk] at hl; simp at hl
          | some k =>
            rw [hk] at hl
            simp only [Option.map_some'] at hl
            cases hl
            rcases firstIdxAux_some _ resp.reverse k hk with ⟨hkl, hpk⟩
            have hkl' : k < resp.length := by simpa using hkl
            have hjl : resp.length - 1 - k < resp.length := by omega
            refine ⟨hjl, ?_⟩
            have := List.getElem_reverse (l := resp) (i := k) (by simpa using hkl)
            rw [this] at hpk
            simpa using hpk
        rcases hj with ⟨hjl, hrj⟩
        refine ⟨resp.take i, (resp.drop (i + 1)).take (j - (i + 1)), resp.drop (j + 1), ?_⟩
        conv_lhs => rw [← List.take_append_drop i resp]
        congr 1
        rw [List.drop_eq_getElem_cons hi, hri]
        congr 1
        conv_lhs => rw [← List.take_append_drop (j - (i + 1)) (resp.drop (i + 1))]
        congr 1
        rw [List.drop_drop]
        rw [show i + 1 + (j - (i + 1)) = j by omega]
        rw [List.drop_eq_getElem_cons hjl, hrj]
      · simp [hij] at h

/-! ## Sample data used by concrete witnesses and counterexamples -/

/-- Sample flight used by concrete witnesses. -/
def wFlight : FlightResult :=
  { id := "F1", flyFrom := "LIN", flyTo := "BCN", cityFrom := "Milan",
    cityTo := "Barcelona",
    departure := { utc := "2025-02-15T08:00:00Z", localTime := "2025-02-15T09:00:00" },
    arrival := { utc := "2025-02-15T10:00:00Z", localTime := "2025-02-15T11:00:00" },
    totalDurationInSeconds := 7200, price := 95, currency := "EUR",
    deepLink := "https://book/F1", layovers := none, direction := none }

/-- Sample return-leg flight. -/
def wReturnFlight : FlightResult :=
  { id := "R1", flyFrom := "BCN", flyTo := "LIN", cityFrom := "Barcelona",
    cityTo := "Milan",
    departure := { utc := "2025-02-22T08:00:00Z", localTime := "2025-02-22T09:00:00" },
    arrival := { utc := "2025-02-22T10:00:00Z", localTime := "2025-02-22T11:00:00" },
    totalDurationInSeconds := 7200, price := 80, currency := "EUR",
    deepLink := "https://book/R1", layovers := none, direction := some .return_ }

/-- Sample analysis payload. -/
def wAnalysis : FlightAnalysis :=
  { marketSummary := "ok",
    priceAnalysis := { avgOutboundPrice := 95, avgReturnPrice := none,
                       isPriceGood := true, priceTrend := "stable" },
    routeAnalysis := { bestOrigin := none, originReason := none,
                       bestDestination := none, destinationReason := none },
    scheduleAnalysis := { hasGoodDirectOptions := true, avgLayoverMinutes := none,
                          bestTimeToFly := "morning" },
    keyInsights := ["cheap"], savingsTips := none }

/-- Sample recommendation without links. -/
def wRec : FlightRecommendation :=
  { outboundFlightId := "F1", returnFlightId := none, totalPrice := 95,
    strategy := .cheapest, confidence := 4/5, reasoning := "cheapest option",
    deepLink := none, outboundDeepLink := none, returnDeepLink := none }

/-- Sample round-trip recommendation without links. -/
def wRoundRec : FlightRecommendation :=
  { outboundFlightId := "F1", returnFlightId := some "R1", totalPrice := 175,
    strategy := .best_value, confidence := 9/10, reasoning := "good combo",
    deepLink := none, outboundDeepLink := none, returnDeepLink := none }

/-- Sample recommendation whose outbound reference is dangling but whose
return reference resolves. -/
def wDanglingRec : FlightRecommendation :=
  { outboundFlightId := "MISSING", returnFlightId := some "R1", totalPrice := 80,
    strategy := .cheapest, confidence := 1/2, reasoning := "return only",
    deepLink := none, outboundDeepLink := none, returnDeepLink := none }

/-- Sample agent output carrying `wFlight`. -/
def wOutput : FlightSearchOutput :=
  { tripType := .oneWay, outbound := [wFlight], return_ := none,
    analysis := wAnalysis, recommendation := wRec, alternatives := none,
    metadata := { searchedAt := "2025-02-01", totalResults := 1, cheapestPrice := some 95 } }

/-- Sample successful SDK envelope. -/
def wEnvelope : SdkExecResult :=
  { success := true, output := some wOutput, error := none,
    meta := { executionId := "exec-1", duration := 10, tokensUsed := 100, costUSD := 0 },
    workflowRunId := none, workflowStatus := none }

/-- Sample provider: throws for origin `MXP`, succeeds with `wEnvelope`
otherwise. -/
def wProvider : SearchProvider := fun from_ _ _ _ =>
  if from_ = "MXP" then .throws "boom" else .returns wEnvelope

/-- Sample flight whose origin string contains the dash used by the dedup
key. -/
def collFlightA : FlightResult :=
  { id := "FA", flyFrom := "A-B", flyTo := "C", cityFrom := "a", cityTo := "c",
    departure := { utc := "U", localTime := "T" },
    arrival := { utc := "U2", localTime := "T2" },
    totalDurationInSeconds := 3600, price := 100, currency := "EUR",
    deepLink := "https://book/FA", layovers := none, direction := none }

/-- Sample flight differing from `collFlightA` in both airport components yet
sharing its concatenated dedup key. -/
def collFlightB : FlightResult :=
  { id := "FB", flyFrom := "A", flyTo := "B-C", cityFrom := "a", cityTo := "b",
    departure := { utc := "U", localTime := "T" },
    arrival := { utc := "U3", localTime := "T3" },
    totalDurationInSeconds := 5400, price := 100, currency := "EUR",
    deepLink := "https://book/FB", layovers := none, direction := none }

/-- Sample failed SDK envelope with a recoverable error. -/
def failEnvelopeRecoverable : SdkExecResult :=
  { success := false, output := none,
    error := some { message := "upstream timeout", code := "TIMEOUT", recoverable := true },
    meta := { executionId := "exec-2", duration := 5, tokensUsed := 7, costUSD := 0 },
    workflowRunId := none, workflowStatus := none }

/-- The same failed SDK envelope with the recoverable flag cleared. -/
def failEnvelopeUnrecoverable : SdkExecResult :=
  { failEnvelopeRecoverable with
      error := some { message := "upstream timeout", code := "TIMEOUT", recoverable := false } }

/-! ## Claim theorems -/

/-- C1: if the injected provider call for one search pair throws, that pair
contributes zero results (`executeSingleSearch` returns `[]`), the
directional search behaves exactly as if the pair were absent (so sibling
pairs are unaffected and no exception escapes the total function), and every
valid record of every other pair is still represented, up to the dedup key
and tagged with the direction, in the final merged and ranked output. -/
theorem search_partial_failure_absorbed (provider : SearchProvider)
    (l₁ l₂ : List SearchPair) (p : SearchPair) (date : String) (dir : FlightDirection)
    (msg : String) (h : provider p.from_ p.to_ date none = .throws msg) :
    executeSingleSearch provider p.from_ p.to_ date none = [] ∧
    executeDirectionalSearch provider (l₁ ++ p :: l₂) date dir =
      executeDirectionalSearch provider (l₁ ++ l₂) date dir ∧
    ∀ q ∈ l₁ ++ l₂, ∀ f ∈ executeSingleSearch provider q.from_ q.to_ date none,
      ∃ g ∈ executeDirectionalSearch provider (l₁ ++ p :: l₂) date dir,
        uniqueKey g = uniqueKey f ∧ g.direction = some dir := by
  have hsingle : executeSingleSearch provider p.from_ p.to_ date none = [] := by
    simp [executeSingleSearch, h]
  refine ⟨hsingle, ?_, ?_⟩
  · simp [executeDirectionalSearch, dedupeAndTag, hsingle, List.map_append,
      List.flatten_append]
  · intro q hq f hf
    have hfmem : f ∈ (List.map
        (fun pair => executeSingleSearch provider pair.from_ pair.to_ date none)
        (l₁ ++ p :: l₂)).flatten := by
      rw [List.mem_flatten]
      refine ⟨executeSingleSearch provider q.from_ q.to_ date none, ?_, hf⟩
      apply List.mem_map_of_mem
      rcases List.mem_append.mp hq with hq | hq
      · exact List.mem_append.mpr (.inl hq)
      · exact List.mem_append.mpr (.inr (List.mem_cons_of_mem _ hq))
    rcases dedupeTagGo_key_represented dir _ [] f hfmem (by simp) with ⟨g, hg, hgk⟩
    rcases dedupeTagGo_source dir _ [] g hg with ⟨f', _, hgf'⟩
    refine ⟨g, ?_, hgk, by rw [hgf']⟩
    unfold executeDirectionalSearch rankByPrice
    rw [List.mem_mergeSort]
    exact hg

/-- C1 witness: a concrete provider throwing for `MXP` pairs; the `MXP`
search yields `[]` while the `LIN` flight survives into the final output. -/
theorem search_partial_failure_witness :
    executeSingleSearch wProvider "MXP" "BCN" "2025-02-15" none = [] ∧
    ∃ g ∈ executeDirectionalSearch wProvider
        [{ from_ := "MXP", to_ := "BCN" }, { from_ := "LIN", to_ := "BCN" }]
        "2025-02-15" .outbound,
      uniqueKey g = uniqueKey (mapSdkFlight wFlight) ∧ g.direction = some .outbound := by
  have h := search_partial_failure_absorbed wProvider []
    [{ from_ := "LIN", to_ := "BCN" }] { from_ := "MXP", to_ := "BCN" }
    "2025-02-15" .outbound "boom" rfl
  exact ⟨h.1, h.2.2 { from_ := "LIN", to_ := "BCN" } (by decide)
    (mapSdkFlight wFlight) (by decide)⟩

/-- C2 counterexample: `collFlightA` and `collFlightB` differ on the origin
and destination components of the composite key, yet because the key is the
dash-joined string, both render `A-B-C-100-T` and the later record is
dropped, contradicting the claim that records differing on any key component
are all retained. -/
theorem dedup_component_collision :
    collFlightA.flyFrom ≠ collFlightB.flyFrom ∧
    collFlightA.flyTo ≠ collFlightB.flyTo ∧
    uniqueKey collFlightA = uniqueKey collFlightB ∧
    dedupeAndTag .outbound [[collFlightA], [collFlightB]] =
      [{ collFlightA with direction := some .outbound }] ∧
    ({ collFlightB with direction := some .outbound }) ∉
      dedupeAndTag .outbound [[collFlightA], [collFlightB]] := by
  refine ⟨by decide, by decide, ?_, ?_, ?_⟩
  · rfl
  · rfl
  · decide

/-- C2 (amended): within one direction, two records agreeing on all four key
components collapse to a single entry; every kept entry is the first
occurrence, in pair-processing order, of its dash-joined key string; a record
whose key string differs from all earlier ones is retained; every record is
represented by its key; each retained record equals an input record with only
the direction field set; and the outbound and return batches of a round-trip
search are deduplicated independently (records of either direction are
represented in their own output regardless of the other direction). -/
theorem dedup_first_occurrence_per_direction :
    (∀ (dir : FlightDirection) (batches : List (List FlightResult)),
      ∀ g₁ ∈ dedupeAndTag dir batches, ∀ g₂ ∈ dedupeAndTag dir batches,
      g₁.flyFrom = g₂.flyFrom → g₁.flyTo = g₂.flyTo → g₁.price = g₂.price →
      g₁.departure.localTime = g₂.departure.localTime → g₁ = g₂) ∧
    (∀ (dir : FlightDirection) (batches : List (List FlightResult)),
      ∀ g ∈ dedupeAndTag dir batches,
      ∃ l₁ f l₂, batches.flatten = l₁ ++ f :: l₂ ∧ g = { f with direction := some dir } ∧
        ∀ f' ∈ l₁, uniqueKey f' ≠ uniqueKey f) ∧
    (∀ (dir : FlightDirection) (batches : List (List FlightResult))
        (l₁ : List FlightResult) (f : FlightResult) (l₂ : List FlightResult),
      batches.flatten = l₁ ++ f :: l₂ →
      (∀ f' ∈ l₁, uniqueKey f' ≠ uniqueKey f) →
      ({ f with direction := some dir }) ∈ dedupeAndTag dir batches) ∧
    (∀ (dir : FlightDirection) (batches : List (List FlightResult)),
      ∀ f ∈ batches.flatten,
      ∃ g ∈ dedupeAndTag dir batches, uniqueKey g = uniqueKey f) ∧
    (∀ (provider : SearchProvider) (input : FlightSearchInput) (rd : String)
        (ob rt : List FlightResult),
      input.returnDate = some rd → rd ≠ "" →
      searchBody provider input = .roundTrip ob rt →
      (∀ q ∈ buildSearchPairs input.flyFrom input.flyTo,
        ∀ f ∈ executeSingleSearch provider q.from_ q.to_ input.departureDate none,
        ∃ g ∈ ob, uniqueKey g = uniqueKey f ∧ g.direction = some .outbound) ∧
      (∀ q ∈ (buildSearchPairs input.flyFrom input.flyTo).map
          (fun p => ({ from_ := p.to_, to_ := p.from_ } : SearchPair)),
        ∀ f ∈ executeSingleSearch provider q.from_ q.to_ rd none,
        ∃ g ∈ rt, uniqueKey g = uniqueKey f ∧ g.direction = some .return_)) := by
  have hrep : ∀ (dir : FlightDirection) (provider : SearchProvider)
      (pairs : List SearchPair) (date : String),
      ∀ q ∈ pairs, ∀ f ∈ executeSingleSearch provider q.from_ q.to_ date none,
      ∃ g ∈ executeDirectionalSearch provider pairs date dir,
        uniqueKey g = uniqueKey f ∧ g.direction = some dir := by
    intro dir provider pairs date q hq f hf
    have hfmem : f ∈ (List.map
        (fun pair => executeSingleSearch provider pair.from_ pair.to_ date none)
        pairs).flatten := by
      rw [List.mem_flatten]
      exact ⟨executeSingleSearch provider q.from_ q.to_ date none,
        List.mem_map_of_mem _ hq, hf⟩
    rcases dedupeTagGo_key_represented dir _ [] f hfmem (by simp) with ⟨g, hg, hgk⟩
    rcases dedupeTagGo_source dir _ [] g hg with ⟨f', _, hgf'⟩
    refine ⟨g, ?_, hgk, by rw [hgf']⟩
    unfold executeDirectionalSearch rankByPrice
    rw [List.mem_mergeSort]
    exact hg
  refine ⟨?_, ?_, ?_, ?_, ?_⟩
  · intro dir batches g₁ hg₁ g₂ hg₂ h1 h2 h3 h4
    by_contra hne
    have hpw := dedupeTagGo_pairwise_keys dir batches.flatten []
    have hsymm : Symmetric (fun a b : FlightResult => uniqueKey a ≠ uniqueKey b) := by
      intro a b hab h
      exact hab h.symm
    exact hpw.forall hsymm hg₁ hg₂ hne (uniqueKey_congr g₁ g₂ h1 h2 h3 h4)
  · intro dir batches g hg
    rcases dedupeTagGo_first_occurrence dir batches.flatten [] g hg with
      ⟨l₁, f, l₂, heq, hgf, hl₁, _⟩
    exact ⟨l₁, f, l₂, heq, hgf, hl₁⟩
  · intro dir batches l₁ f l₂ heq hl₁
    unfold dedupeAndTag
    rw [heq]
    exact dedupeTagGo_retains_first dir l₁ f l₂ [] hl₁ (by simp)
  · intro dir batches f hf
    exact dedupeTagGo_key_represented dir batches.flatten [] f hf (by simp)
  · intro provider input rd ob rt hrd hrdne hsb
    simp only [searchBody, hrd, if_neg hrdne] at hsb
    injection hsb with h1 h2
    subst h1
    subst h2
    constructor
    · exact hrep .outbound provider _ input.departureDate
    · exact hrep .return_ provider _ rd

/-- C2 witness: a record whose key string differs from the earlier record is
retained (tagged with the direction). -/
theorem dedup_retains_distinct_key_witness :
    ({ collFlightA with direction := some FlightDirection.return_ }) ∈
      dedupeAndTag .return_ [[wFlight], [collFlightA]] :=
  dedup_first_occurrence_per_direction.2.2.1 FlightDirection.return_
    [[wFlight], [collFlightA]] [wFlight] collFlightA [] rfl (by decide)

/-- C3: for every input list the ranked output is a permutation,
non-decreasing in price, and stable: entries of any fixed price keep their
pre-sort relative order. -/
theorem ranking_stable_ascending (l : List FlightResult) :
    (rankByPrice l).Perm l ∧
    (rankByPrice l).Pairwise (fun a b => a.price ≤ b.price) ∧
    ∀ p : Rat, (rankByPrice l).filter (fun f => f.price == p) =
      l.filter (fun f => f.price == p) := by
  have trans : ∀ a b c : FlightResult,
      (fun a b : FlightResult => (decide (a.price ≤ b.price))) a b →
      (fun a b : FlightResult => (decide (a.price ≤ b.price))) b c →
      (fun a b : FlightResult => (decide (a.price ≤ b.price))) a c := by
    intro a b c hab hbc
    exact decide_eq_true (le_trans (of_decide_eq_true hab) (of_decide_eq_true hbc))
  have total : ∀ a b : FlightResult,
      ((fun a b : FlightResult => (decide (a.price ≤ b.price))) a b ||
       (fun a b : FlightResult => (decide (a.price ≤ b.price))) b a) := by
    intro a b
    rcases le_total a.price b.price with h | h
    · simp [h]
    · simp [h]
  refine ⟨List.mergeSort_perm l _, ?_, ?_⟩
  · have h := List.sorted_mergeSort trans total l
    exact h.imp (fun hab => of_decide_eq_true hab)
  · intro p
    set q : FlightResult → Bool := fun f => f.price == p with hq
    have hmem : ∀ a ∈ l.filter q, a.price = p := by
      intro a ha
      have := (List.mem_filter.mp ha).2
      simpa [hq] using this
    have hpw : (l.filter q).Pairwise
        (fun a b : FlightResult => (decide (a.price ≤ b.price))) := by
      apply List.pairwise_of_forall_mem_list
      intro a ha b hb
      have := hmem a ha
      have := hmem b hb
      simp_all
    have hsub : List.Sublist (l.filter q) (rankByPrice l) :=
      List.sublist_mergeSort trans total hpw (List.filter_sublist l)
    have hself : (l.filter q).filter q = l.filter q := by
      rw [List.filter_eq_self]
      intro a ha
      simp [hq, hmem a ha]
    have hsub2 : List.Sublist (l.filter q) ((rankByPrice l).filter q) := by
      have := hsub.filter q
      rwa [hself] at this
    have hlen : ((rankByPrice l).filter q).length = (l.filter q).length :=
      ((List.mergeSort_perm l _).filter q).length_eq
    exact (hsub2.eq_of_length hlen.symm).symm

/-- C4: the deep-link enrichment policy of `enrichRec`: an explicit non-empty
primary link is preserved; with both references resolved the outbound,
return, and primary links are set from the resolved flights (primary from the
outbound leg); with only the outbound resolved the outbound and primary links
are set; with neither resolved the recommendation passes through unchanged
(and the function is total, so no error is possible); and the enrichment is
applied independently to the primary recommendation and to every alternative
while the flight lists and analysis are untouched. -/
theorem enrichment_policy :
    (∀ (allFlights : List FlightResult) (rec : FlightRecommendation) (s : String),
      rec.deepLink = some s → s ≠ "" → enrichRec allFlights rec = rec) ∧
    (∀ (allFlights : List FlightResult) (rec : FlightRecommendation)
        (ob rf : FlightResult),
      (rec.deepLink = none ∨ rec.deepLink = some "") →
      resolveOutbound allFlights rec = some ob →
      resolveReturn allFlights rec = some rf →
      enrichRec allFlights rec =
        { rec with outboundDeepLink := some ob.deepLink,
                   returnDeepLink := some rf.deepLink,
                   deepLink := some ob.deepLink }) ∧
    (∀ (allFlights : List FlightResult) (rec : FlightRecommendation) (ob : FlightResult),
      (rec.deepLink = none ∨ rec.deepLink = some "") →
      resolveOutbound allFlights rec = some ob →
      resolveReturn allFlights rec = none →
      enrichRec allFlights rec =
        { rec with outboundDeepLink := some ob.deepLink, deepLink := some ob.deepLink }) ∧
    (∀ (allFlights : List FlightResult) (rec : FlightRecommendation),
      resolveOutbound allFlights rec = none →
      resolveReturn allFlights rec = none →
      enrichRec allFlights rec = rec) ∧
    (∀ output : FlightSearchOutput,
      (enrichOutputWithDeepLinks output).recommendation =
        enrichRec (output.outbound ++ (output.return_.getD [])) output.recommendation ∧
      (enrichOutputWithDeepLinks output).alternatives =
        output.alternatives.map
          (List.map (enrichRec (output.outbound ++ (output.return_.getD [])))) ∧
      (enrichOutputWithDeepLinks output).outbound = output.outbound ∧
      (enrichOutputWithDeepLinks output).return_ = output.return_ ∧
      (enrichOutputWithDeepLinks output).analysis = output.analysis) := by
  refine ⟨?_, ?_, ?_, ?_, ?_⟩
  · intro allFlights rec s h hs
    simp [enrichRec, h, hs]
  · intro allFlights rec ob rf hdl hob hrf
    rcases hdl with h | h <;> simp [enrichRec, h, hob, hrf]
  · intro allFlights rec ob hdl hob hrf
    rcases hdl with h | h <;> simp [enrichRec, h, hob, hrf]
  · intro allFlights rec hob hrf
    simp [enrichRec, hob, hrf]
  · intro output
    exact ⟨rfl, rfl, rfl, rfl, rfl⟩

/-- C4 witness: both references of `wRoundRec` resolve, so all three link
fields are backfilled from the resolved flights. -/
theorem enrichment_policy_witness :
    enrichRec [wFlight, wReturnFlight] wRoundRec =
      { wRoundRec with
          outboundDeepLink := some "https://book/F1",
          returnDeepLink := some "https://book/R1",
          deepLink := some "https://book/F1" } :=
  enrichment_policy.2.1 [wFlight, wReturnFlight] wRoundRec wFlight wReturnFlight
    (Or.inl rfl) rfl rfl

/-- C5: the search expands exactly `N × M` pairs in outer-origin inner-
destination order, each drawn from the input lists, and an empty origin or
destination list is rejected by the input schema with an invalid-input error
before any search work (the guarded pipeline fails identically for every
provider). -/
theorem pair_expansion_cross_product :
    (∀ (flyFrom flyTo : List String),
      (buildSearchPairs flyFrom flyTo).length = flyFrom.length * flyTo.length) ∧
    (∀ (flyFrom flyTo : List String), ∀ p ∈ buildSearchPairs flyFrom flyTo,
      p.from_ ∈ flyFrom ∧ p.to_ ∈ flyTo) ∧
    (∀ (flyFrom flyTo : List String) (i j : Nat)
      (_ : i < flyFrom.length) (hj : j < flyTo.length),
      (buildSearchPairs flyFrom flyTo)[i * flyTo.length + j]? =
        some { from_ := flyFrom[i], to_ := flyTo[j] }) ∧
    (∀ (raw : RawFlightSearchInput) (provider₁ provider₂ : SearchProvider),
      raw.flyFrom = [] ∨ raw.flyTo = [] →
      (∃ e, guardedFlightSearch provider₁ raw = .error e) ∧
      guardedFlightSearch provider₁ raw = guardedFlightSearch provider₂ raw) :=
  ⟨buildSearchPairs_length, buildSearchPairs_mem,
    fun flyFrom flyTo i j hi hj => buildSearchPairs_getElem flyFrom flyTo i j hi hj,
    fun raw p₁ p₂ h => guarded_error_of_empty raw h p₁ p₂⟩

/-- C5 witness: concrete cross-product indexing and the rejection of an empty
origin list. -/
theorem pair_expansion_witness :
    (buildSearchPairs ["MXP", "LIN"] ["BCN", "MAD"])[1 * 2 + 0]? =
      some { from_ := "LIN", to_ := "BCN" } ∧
    (∃ e, guardedFlightSearch wProvider
      { flyFrom := [], flyTo := ["BCN"], departureDate := "2025-02-15",
        returnDate := none, maxResults := none, currency := none,
        preferences := none } = .error e) :=
  ⟨pair_expansion_cross_product.2.2.1 ["MXP", "LIN"] ["BCN", "MAD"] 1 0
      (by decide) (by decide),
    (pair_expansion_cross_product.2.2.2
      { flyFrom := [], flyTo := ["BCN"], departureDate := "2025-02-15",
        returnDate := none, maxResults := none, currency := none,
        preferences := none } wProvider wProvider (Or.inl rfl)).1⟩

/-- C8 counterexample: the `SmartSearchResult` error object has no
recoverable flag: two SDK outcomes differing only in their recoverable flag
produce identical results, so the failed result cannot carry that flag. -/
theorem failure_envelope_drops_recoverable :
    failEnvelopeRecoverable ≠ failEnvelopeUnrecoverable ∧
    (smartFlightSearch { isInitialized := true, basePath := "b" } "b"
        (.returns failEnvelopeRecoverable) 0 5).2 =
      (smartFlightSearch { isInitialized := true, basePath := "b" } "b"
        (.returns failEnvelopeUnrecoverable) 0 5).2 :=
  ⟨by decide, rfl⟩

/-- C8 (amended): every failed result carries an error object with a message
and a machine code (but no recoverable flag), metadata is always populated;
on the exception path the usage fields are zero and the duration runs from
call start to the failure point; on a structured SDK failure the reported
metadata is passed through. -/
theorem failure_envelope_fields :
    (∀ (st : SmartState) (bp : String) (outcome : SdkCallOutcome) (t0 t1 : Nat),
      (smartFlightSearch st bp outcome t0 t1).2.success = false →
      ∃ m c, (smartFlightSearch st bp outcome t0 t1).2.error =
        some { message := m, code := c }) ∧
    (∀ (st : SmartState) (bp msg : String) (t0 t1 : Nat),
      (smartFlightSearch st bp (.throws msg) t0 t1).2 =
        { success := false, data := none,
          error := some { message := msg, code := "EXECUTION_ERROR" },
          meta := { executionId := "error-" ++ toString t1, durationMs := t1 - t0,
                    tokensUsed := 0, costUSD := 0 },
          workflowRunId := none, workflowStatus := none }) ∧
    (∀ (st : SmartState) (bp : String) (res : SdkExecResult) (t0 t1 : Nat),
      res.success = false ∨ res.output = none →
      (smartFlightSearch st bp (.returns res) t0 t1).2.meta =
        { executionId := res.meta.executionId, durationMs := res.meta.duration,
          tokensUsed := res.meta.tokensUsed, costUSD := res.meta.costUSD }) := by
  refine ⟨?_, ?_, ?_⟩
  · intro st bp outcome t0 t1 hfail
    cases outcome with
    | throws msg => exact ⟨msg, "EXECUTION_ERROR", rfl⟩
    | returns res =>
      cases hout : res.output with
      | none =>
        refine ⟨(res.error.map SdkError.message).getD "Unknown error occurred",
          (res.error.map SdkError.code).getD "UNKNOWN_ERROR", ?_⟩
        simp [smartFlightSearch, hout, smartFlightSearch.smartFailureResult]
      | some out =>
        by_cases hs : res.success
        · exfalso
          simp [smartFlightSearch, hout, hs] at hfail
        · refine ⟨(res.error.map SdkError.message).getD "Unknown error occurred",
            (res.error.map SdkError.code).getD "UNKNOWN_ERROR", ?_⟩
          simp [smartFlightSearch, hout, hs, smartFlightSearch.smartFailureResult]
  · intro st bp msg t0 t1
    rfl
  · intro st bp res t0 t1 hfail
    rcases hfail with hs | hout
    · cases hout : res.output with
      | none => simp [smartFlightSearch, hout, smartFlightSearch.smartFailureResult]
      | some out => simp [smartFlightSearch, hout, hs, smartFlightSearch.smartFailureResult]
    · simp [smartFlightSearch, hout, smartFlightSearch.smartFailureResult]

/-- C8 witness: a concrete structured failure passes the SDK-reported
metadata through. -/
theorem failure_envelope_witness :
    ((smartFlightSearch { isInitialized := true, basePath := "b" } "b"
        (.returns failEnvelopeRecoverable) 0 5).2).meta =
      { executionId := "exec-2", durationMs := 5, tokensUsed := 7, costUSD := 0 } :=
  failure_envelope_fields.2.2 { isInitialized := true, basePath := "b" } "b"
    failEnvelopeRecoverable 0 5 (Or.inl rfl)

/-- C9 counterexample: `smartFlightSearch` invoked with the module
uninitialized does not fail with a configuration error; it self-initializes
and succeeds. -/
theorem smart_search_succeeds_unconfigured :
    ((smartFlightSearch { isInitialized := false, basePath := "" } "/repo"
        (.returns wEnvelope) 0 9).2).success = true ∧
    ((smartFlightSearch { isInitialized := false, basePath := "" } "/repo"
        (.returns wEnvelope) 0 9).2).error = none :=
  ⟨rfl, rfl⟩

/-- C9 (amended): `FlightSearchService.search` called before `configure()`
fails synchronously with the configuration error, performing no search work
(the result is provider-independent); `smartFlightSearch`, by contrast, never
fails for lack of initialization: it initializes itself and its result does
not depend on the initialization state. -/
theorem unconfigured_search_behaviour :
    (∀ (provider : SearchProvider) (input : FlightSearchInput),
      searchService none provider input = .error
        "[FlightSearchService] Service not configured. Call FlightSearchService.configure() first.") ∧
    (∀ (provider₁ provider₂ : SearchProvider) (input : FlightSearchInput),
      searchService none provider₁ input = searchService none provider₂ input) ∧
    (∀ (st : SmartState) (bp : String) (outcome : SdkCallOutcome) (t0 t1 : Nat),
      ((smartFlightSearch st bp outcome t0 t1).1).isInitialized = true) ∧
    (∀ (st st' : SmartState) (bp : String) (outcome : SdkCallOutcome) (t0 t1 : Nat),
      (smartFlightSearch st bp outcome t0 t1).2 =
        (smartFlightSearch st' bp outcome t0 t1).2) := by
  refine ⟨fun _ _ => rfl, fun _ _ _ => rfl, ?_, ?_⟩
  · intro st bp outcome t0 t1
    have hst : ((if st.isInitialized then st
        else initializeSmartSearch st none bp)).isInitialized = true := by
      by_cases h : st.isInitialized
      · simp [h]
      · simp [h, initializeSmartSearch]
    cases outcome with
    | throws msg => exact hst
    | returns res =>
      cases hout : res.output with
      | none => simpa [smartFlightSearch, hout] using hst
      | some out =>
        by_cases hs : res.success
        · simpa [smartFlightSearch, hout, hs] using hst
        · simpa [smartFlightSearch, hout, hs] using hst
  · intro st st' bp outcome t0 t1
    cases outcome with
    | throws msg => rfl
    | returns res =>
      cases hout : res.output with
      | none => simp [smartFlightSearch, hout]
      | some out => by_cases hs : res.success <;> simp [smartFlightSearch, hout, hs]

/-- C6 counterexample: on a response containing two array literals, the
greedy regex spans from the first `[` to the last `]`, the parse of that span
fails, and the extractor yields no candidates, although the first JSON array
literal of the text is `[1,2]` and parses fine, contradicting the claim that
the first array literal is located and parsed. -/
theorem fallback_misses_first_array_literal :
    parseFallbackFlights "x [1,2] y [3] z" = [] ∧
    findFirstArrayLiteral ("x [1,2] y [3] z".toList) =
      some [Json.num 1, Json.num 2] :=
  ⟨rfl, rfl⟩

/-- C6 (amended): the fallback takes the substring from the first `[` to the
last `]` of the response (the greedy dot-all regex match) and parses it; when
that span parses as a JSON array its elements are the candidates, and when
there is no such span, or the parse fails, the result is the empty list; the
extractor is a total function, so this path never raises. -/
theorem fallback_greedy_span_extraction (resp : List Char) :
    (∀ pre mid post, resp = pre ++ '[' :: (mid ++ ']' :: post) →
      '[' ∉ pre → ']' ∉ post →
      parseFallbackFlights (String.mk resp) =
        (match jsonParse (String.mk ('[' :: (mid ++ [']']))) with
         | some (.arr xs) => xs
         | _ => [])) ∧
    ((¬ ∃ pre mid post, resp = pre ++ '[' :: (mid ++ ']' :: post)) →
      parseFallbackFlights (String.mk resp) = []) := by
  constructor
  · intro pre mid post hdecomp hpre hpost
    subst hdecomp
    unfold parseFallbackFlights
    have ht : (String.mk (pre ++ '[' :: (mid ++ ']' :: post))).toList =
        pre ++ '[' :: (mid ++ ']' :: post) := rfl
    rw [ht, regexArraySpan_of_decomp pre mid post hpre hpost]
  · intro hno
    unfold parseFallbackFlights
    have ht : (String.mk resp).toList = resp := rfl
    rw [ht]
    cases hs : regexArraySpan resp with
    | none => rfl
    | some span =>
      exact absurd (exists_decomp_of_span resp span hs) hno

/-- C6 witness: a response with a single embedded array, whose span parses
and yields its elements. -/
theorem fallback_span_witness :
    parseFallbackFlights "a[1]b" = [Json.num 1] := by
  have h := (fallback_greedy_span_extraction ("a[1]b".toList)).1 ['a'] ['1'] ['b']
    rfl (by decide) (by decide)
  exact h.trans rfl

/-- C10: a recommendation whose outbound reference does not resolve is
returned completely unchanged, even when its return reference does resolve;
in particular the return link is not backfilled. -/
theorem unresolved_outbound_unchanged (allFlights : List FlightResult)
    (rec : FlightRecommendation) (hob : resolveOutbound allFlights rec = none) :
    enrichRec allFlights rec = rec := by
  simp [enrichRec, hob]

/-- C10 witness: the return reference of `wDanglingRec` resolves while its
outbound reference dangles; enrichment leaves it untouched. -/
theorem unresolved_outbound_witness :
    resolveReturn [wReturnFlight] wDanglingRec = some wReturnFlight ∧
    enrichRec [wReturnFlight] wDanglingRec = wDanglingRec :=
  ⟨rfl, unresolved_outbound_unchanged [wReturnFlight] wDanglingRec rfl⟩

end OneFlight

namespace OneFlight

/-- The 6-bit symbol values of base64, grouped three bytes at a time. -/
def symGroups : List Nat → List Nat
  | [] => []
  | [b1] => [b1 / 4, b1 % 4 * 16]
  | [b1, b2] => [b1 / 4, b1 % 4 * 16 + b2 / 16, b2 % 16 * 4]
  | b1 :: b2 :: b3 :: rest =>
    b1 / 4 :: (b1 % 4 * 16 + b2 / 16) :: (b2 % 16 * 4 + b3 / 64) :: (b3 % 64) ::
      symGroups rest

/-- The `=` padding of base64. -/
def b64Pad : List Nat → List Char
  | [] => []
  | [_] => ['=', '=']
  | [_, _] => ['=']
  | _ :: _ :: _ :: rest => b64Pad rest

theorem base64Encode_eq_symGroups :
    ∀ bs : List Nat, base64Encode bs = (symGroups bs).map b64Char ++ b64Pad bs := by
  intro bs
  induction bs using base64Encode.induct with
  | case1 => rfl
  | case2 b1 => rfl
  | case3 b1 b2 => rfl
  | case4 b1 b2 b3 rest ih =>
    rw [base64Encode, symGroups, b64Pad]
    simp only [List.map_cons, List.cons_append]
    rw [ih]

theorem symGroups_lt_64 :
    ∀ bs : List Nat, (∀ b ∈ bs, b < 256) → ∀ v ∈ symGroups bs, v < 64 := by
  intro bs
  induction bs using symGroups.induct with
  | case1 => intro _ v hv; simp [symGroups] at hv
  | case2 b1 =>
    intro hb v hv
    have h1 := hb b1 (by simp)
    simp [symGroups] at hv
    rcases hv with rfl | rfl <;> omega
  | case3 b1 b2 =>
    intro hb v hv
    have h1 := hb b1 (by simp)
    have h2 := hb b2 (by simp)
    simp [symGroups] at hv
    rcases hv with rfl | rfl | rfl <;> omega
  | case4 b1 b2 b3 rest ih =>
    intro hb v hv
    have h1 := hb b1 (by simp)
    have h2 := hb b2 (by simp)
    have h3 := hb b3 (by simp)
    rw [symGroups] at hv
    simp only [List.mem_cons] at hv
    rcases hv with rfl | rfl | rfl | rfl | hv
    · omega
    · omega
    · omega
    · omega
    · exact ih (fun b hbm => hb b (by simp [hbm])) v hv

theorem b64Char_reserved (v : Nat) (hv : v < 64) :
    (!(b64Char v == '+' || b64Char v == '/' || b64Char v == '=')) = decide (v < 62) := by
  interval_cases v <;> decide

theorem b64Char_inj (v w : Nat) (hv : v < 64) (hw : w < 64) (h : b64Char v = b64Char w) :
    v = w := by
  interval_cases v <;> interval_cases w <;> first | rfl | (exfalso; exact absurd h (by decide))

end OneFlight
namespace OneFlight

theorem stripReserved_b64Pad : ∀ bs : List Nat, stripReserved (b64Pad bs) = [] := by
  intro bs
  induction bs using b64Pad.induct with
  | case1 => rfl
  | case2 _ => rfl
  | case3 _ _ => rfl
  | case4 _ _ _ rest ih => rw [b64Pad]; exact ih

theorem stripReserved_map_b64Char :
    ∀ l : List Nat, (∀ v ∈ l, v < 64) →
      stripReserved (l.map b64Char) = (l.filter (fun v => decide (v < 62))).map b64Char := by
  intro l hl
  unfold stripReserved
  rw [List.filter_map]
  congr 1
  apply List.filter_congr
  intro v hv
  simpa using b64Char_reserved v (hl v hv)

theorem stripReserved_base64 (bs : List Nat) (hb : ∀ b ∈ bs, b < 256) :
    stripReserved (base64Encode bs) =
      ((symGroups bs).filter (fun v => decide (v < 62))).map b64Char := by
  rw [base64Encode_eq_symGroups]
  unfold stripReserved
  rw [List.filter_append]
  have h1 := stripReserved_map_b64Char (symGroups bs) (symGroups_lt_64 bs hb)
  unfold stripReserved at h1
  rw [h1]
  have h2 := stripReserved_b64Pad bs
  unfold stripReserved at h2
  rw [h2, List.append_nil]

theorem map_b64Char_inj :
    ∀ (l1 l2 : List Nat), (∀ v ∈ l1, v < 64) → (∀ v ∈ l2, v < 64) →
      l1.map b64Char = l2.map b64Char → l1 = l2 := by
  intro l1
  induction l1 with
  | nil => intro l2 _ _ h; cases l2 with | nil => rfl | cons _ _ => simp at h
  | cons v rest ih =>
    intro l2 h1 h2 h
    cases l2 with
    | nil => simp at h
    | cons w rest2 =>
      simp only [List.map_cons, List.cons.injEq] at h
      have hv := h1 v (by simp)
      have hw := h2 w (by simp)
      rw [b64Char_inj v w hv hw h.1,
        ih rest2 (fun x hx => h1 x (by simp [hx])) (fun x hx => h2 x (by simp [hx])) h.2]

end OneFlight
namespace OneFlight

/-- Base64 symbol values read from the end of the byte stream: the first
argument is the byte-length residue mod 3, the second the reversed bytes. -/
def rsymGroups : Nat → List Nat → List Nat
  | 0, b3 :: b2 :: b1 :: rest =>
    (b3 % 64) :: (b2 % 16 * 4 + b3 / 64) :: (b1 % 4 * 16 + b2 / 16) :: (b1 / 4) ::
      rsymGroups 0 rest
  | 1, b :: rest => (b % 4 * 16) :: (b / 4) :: rsymGroups 0 rest
  | 2, b2 :: b1 :: rest => (b2 % 16 * 4) :: (b1 % 4 * 16 + b2 / 16) :: (b1 / 4) ::
    rsymGroups 0 rest
  | _, _ => []

theorem symGroups_append :
    ∀ u v : List Nat, u.length % 3 = 0 → symGroups (u ++ v) = symGroups u ++ symGroups v := by
  intro u
  induction u using symGroups.induct with
  | case1 => intro v _; simp [symGroups]
  | case2 b1 => intro v h; simp at h
  | case3 b1 b2 => intro v h; simp at h
  | case4 b1 b2 b3 rest ih =>
    intro v h
    have hr : rest.length % 3 = 0 := by simp at h; omega
    rw [List.cons_append, List.cons_append, List.cons_append]
    rw [symGroups, symGroups, ih v hr]
    rfl

theorem rsymGroups_append :
    ∀ (n : Nat) (u v : List Nat) (a : Nat), u.length = n → u.length % 3 = a →
      rsymGroups a (u ++ v) = rsymGroups a u ++ rsymGroups 0 v := by
  intro n
  induction n using Nat.strong_induction_on with
  | _ n ih =>
    intro u v a hn ha
    match a, u with
    | 0, [] => simp [rsymGroups]
    | 0, [b1] => simp at ha
    | 0, [b1, b2] => simp at ha
    | 0, b3 :: b2 :: b1 :: u'' =>
      rw [List.cons_append, List.cons_append, List.cons_append, rsymGroups, rsymGroups]
      have h3 : u''.length % 3 = 0 := by
        simp only [List.length_cons] at ha
        omega
      rw [ih u''.length (by simp only [← hn, List.length_cons]; omega) u'' v 0 rfl h3]
      rfl
    | 1, [] => simp at ha
    | 1, b :: u' =>
      rw [List.cons_append, rsymGroups, rsymGroups]
      have h3 : u'.length % 3 = 0 := by
        simp only [List.length_cons] at ha
        omega
      rw [ih u'.length (by simp only [← hn, List.length_cons]; omega) u' v 0 rfl h3]
      rfl
    | 2, [] => simp at ha
    | 2, [b2] => simp at ha
    | 2, b2 :: b1 :: u'' =>
      rw [List.cons_append, List.cons_append, rsymGroups, rsymGroups]
      have h3 : u''.length % 3 = 0 := by
        simp only [List.length_cons] at ha
        omega
      rw [ih u''.length (by simp only [← hn, List.length_cons]; omega) u'' v 0 rfl h3]
      rfl
    | (a + 3), _ => exact absurd ha (by omega)

theorem rsym_spec :
    ∀ (n : Nat) (bs : List Nat), bs.length = n →
      (symGroups bs).reverse = rsymGroups (bs.length % 3) bs.reverse := by
  intro n
  induction n using Nat.strong_induction_on with
  | _ n ih =>
    intro bs hn
    match bs with
    | [] => rfl
    | [b1] => simp [symGroups, rsymGroups]
    | [b1, b2] => simp [symGroups, rsymGroups]
    | b1 :: b2 :: b3 :: rest =>
      rw [symGroups]
      have hrev : (b1 :: b2 :: b3 :: rest).reverse = rest.reverse ++ [b3, b2, b1] := by
        simp
      have hlen : (b1 :: b2 :: b3 :: rest).length % 3 = rest.length % 3 := by
        simp only [List.length_cons]
        omega
      rw [hrev, hlen]
      rw [rsymGroups_append rest.reverse.length rest.reverse [b3, b2, b1] (rest.length % 3)
        rfl (by simp)]
      rw [show (rsymGroups 0 [b3, b2, b1]) =
        [b3 % 64, b2 % 16 * 4 + b3 / 64, b1 % 4 * 16 + b2 / 16, b1 / 4] from rfl]
      rw [← ih rest.length (by simp only [← hn, List.length_cons]; omega) rest rfl]
      simp

end OneFlight

namespace OneFlight

/-- Peeling one surviving symbol off the strip filter. -/
theorem filter62_cons (x : Nat) (l : List Nat) (hx : x < 62) :
    List.filter (fun v => decide (v < 62)) (x :: l) =
      x :: List.filter (fun v => decide (v < 62)) l := by
  rw [List.filter_cons_of_pos (by simpa using hx)]

/-- Bytes below 62 at the head of the reversed stream are pinned by the
filtered symbol stream: symbols over zone bytes survive the strip and
determine the bytes. -/
theorem rsym_filter_take :
    ∀ (n : Nat) (ru rv : List Nat) (a L : Nat), ru.length = n →
      ru.length % 3 = a → rv.length % 3 = a →
      L ≤ ru.length → L ≤ rv.length →
      (∀ b ∈ ru.take L, b < 62) → (∀ b ∈ rv.take L, b < 62) →
      (∀ b ∈ ru, b < 256) → (∀ b ∈ rv, b < 256) →
      (rsymGroups a ru).filter (fun v => decide (v < 62)) =
        (rsymGroups a rv).filter (fun v => decide (v < 62)) →
      ru.take L = rv.take L := by
  intro n
  induction n using Nat.strong_induction_on with
  | _ n ih =>
    intro ru rv a L hn ha hb hLu hLv hzu hzv hu hv hf
    rcases L with _ | L
    · simp
    match a, ru, rv with
    | 0, [], _ => exact absurd hLu (by simp)
    | 0, _, [] => exact absurd hLv (by simp)
    | 0, [c], _ => simp at ha
    | 0, [c, c2], _ => simp at ha
    | 0, c3 :: c2 :: c1 :: ru', [d] => simp at hb
    | 0, c3 :: c2 :: c1 :: ru', [d, d2] => simp at hb
    | 0, c3 :: c2 :: c1 :: ru', d3 :: d2 :: d1 :: rv' =>
      have hc3 : c3 < 62 := hzu c3 (by simp [List.take_succ_cons])
      have hd3 : d3 < 62 := hzv d3 (by simp [List.take_succ_cons])
      have hc2b : c2 < 256 := hu c2 (by simp)
      have hd2b : d2 < 256 := hv d2 (by simp)
      have hc1b : c1 < 256 := hu c1 (by simp)
      have hd1b : d1 < 256 := hv d1 (by simp)
      rw [rsymGroups, rsymGroups] at hf
      rw [filter62_cons _ _ (show c3 % 64 < 62 by omega),
        filter62_cons _ _ (show c2 % 16 * 4 + c3 / 64 < 62 by omega),
        filter62_cons _ _ (show d3 % 64 < 62 by omega),
        filter62_cons _ _ (show d2 % 16 * 4 + d3 / 64 < 62 by omega)] at hf
      simp only [List.cons.injEq] at hf
      obtain ⟨h1, h2, hf⟩ := hf
      rcases L with _ | L
      · simp only [List.take_succ_cons, List.take_zero, List.cons.injEq]
        exact ⟨by omega, trivial⟩
      have hc2 : c2 < 62 := hzu c2 (by simp [List.take_succ_cons])
      have hd2 : d2 < 62 := hzv d2 (by simp [List.take_succ_cons])
      rw [filter62_cons _ _ (show c1 % 4 * 16 + c2 / 16 < 62 by omega),
        filter62_cons _ _ (show d1 % 4 * 16 + d2 / 16 < 62 by omega)] at hf
      simp only [List.cons.injEq] at hf
      obtain ⟨h3, hf⟩ := hf
      rcases L with _ | L
      · simp only [List.take_succ_cons, List.take_zero, List.cons.injEq]
        exact ⟨by omega, by omega, trivial⟩
      have hc1 : c1 < 62 := hzu c1 (by simp [List.take_succ_cons])
      have hd1 : d1 < 62 := hzv d1 (by simp [List.take_succ_cons])
      rw [filter62_cons _ _ (show c1 / 4 < 62 by omega),
        filter62_cons _ _ (show d1 / 4 < 62 by omega)] at hf
      simp only [List.cons.injEq] at hf
      obtain ⟨h4, hf⟩ := hf
      have hrec := ih ru'.length (by simp only [← hn, List.length_cons]; omega)
        ru' rv' 0 L rfl
        (by simp only [List.length_cons] at ha; omega)
        (by simp only [List.length_cons] at hb; omega)
        (by simp only [List.length_cons] at hLu; omega)
        (by simp only [List.length_cons] at hLv; omega)
        (fun b hbm => hzu b (by simp only [List.take_succ_cons]; simp [hbm]))
        (fun b hbm => hzv b (by simp only [List.take_succ_cons]; simp [hbm]))
        (fun b hbm => hu b (by simp [hbm]))
        (fun b hbm => hv b (by simp [hbm]))
        hf
      simp only [List.take_succ_cons, List.cons.injEq]
      exact ⟨by omega, by omega, by omega, hrec⟩
    | 1, [], _ => simp at ha
    | 1, _, [] => simp at hb
    | 1, c :: ru', d :: rv' =>
      have hc : c < 62 := hzu c (by simp [List.take_succ_cons])
      have hd : d < 62 := hzv d (by simp [List.take_succ_cons])
      rw [rsymGroups, rsymGroups] at hf
      rw [filter62_cons _ _ (show c % 4 * 16 < 62 by omega),
        filter62_cons _ _ (show c / 4 < 62 by omega),
        filter62_cons _ _ (show d % 4 * 16 < 62 by omega),
        filter62_cons _ _ (show d / 4 < 62 by omega)] at hf
      simp only [List.cons.injEq] at hf
      obtain ⟨h1, h2, hf⟩ := hf
      have hrec := ih ru'.length (by simp only [← hn, List.length_cons]; omega)
        ru' rv' 0 L rfl
        (by simp only [List.length_cons] at ha; omega)
        (by simp only [List.length_cons] at hb; omega)
        (by simp only [List.length_cons] at hLu; omega)
        (by simp only [List.length_cons] at hLv; omega)
        (fun b hbm => hzu b (by simp only [List.take_succ_cons]; simp [hbm]))
        (fun b hbm => hzv b (by simp only [List.take_succ_cons]; simp [hbm]))
        (fun b hbm => hu b (by simp [hbm]))
        (fun b hbm => hv b (by simp [hbm]))
        hf
      simp only [List.take_succ_cons, List.cons.injEq]
      exact ⟨by omega, hrec⟩
    | 2, [], _ => simp at ha
    | 2, [c], _ => simp at ha
    | 2, c2 :: c1 :: ru', [] => simp at hb
    | 2, c2 :: c1 :: ru', [d] => simp at hb
    | 2, c2 :: c1 :: ru', d2 :: d1 :: rv' =>
      have hc2 : c2 < 62 := hzu c2 (by simp [List.take_succ_cons])
      have hd2 : d2 < 62 := hzv d2 (by simp [List.take_succ_cons])
      have hc1b : c1 < 256 := hu c1 (by simp)
      have hd1b : d1 < 256 := hv d1 (by simp)
      rw [rsymGroups, rsymGroups] at hf
      rw [filter62_cons _ _ (show c2 % 16 * 4 < 62 by omega),
        filter62_cons _ _ (show c1 % 4 * 16 + c2 / 16 < 62 by omega),
        filter62_cons _ _ (show d2 % 16 * 4 < 62 by omega),
        filter62_cons _ _ (show d1 % 4 * 16 + d2 / 16 < 62 by omega)] at hf
      simp only [List.cons.injEq] at hf
      obtain ⟨h1, h2, hf⟩ := hf
      rcases L with _ | L
      · simp only [List.take_succ_cons, List.take_zero, List.cons.injEq]
        exact ⟨by omega, trivial⟩
      have hc1 : c1 < 62 := hzu c1 (by simp [List.take_succ_cons])
      have hd1 : d1 < 62 := hzv d1 (by simp [List.take_succ_cons])
      rw [filter62_cons _ _ (show c1 / 4 < 62 by omega),
        filter62_cons _ _ (show d1 / 4 < 62 by omega)] at hf
      simp only [List.cons.injEq] at hf
      obtain ⟨h3, hf⟩ := hf
      have hrec := ih ru'.length (by simp only [← hn, List.length_cons]; omega)
        ru' rv' 0 L rfl
        (by simp only [List.length_cons] at ha; omega)
        (by simp only [List.length_cons] at hb; omega)
        (by simp only [List.length_cons] at hLu; omega)
        (by simp only [List.length_cons] at hLv; omega)
        (fun b hbm => hzu b (by simp only [List.take_succ_cons]; simp [hbm]))
        (fun b hbm => hzv b (by simp only [List.take_succ_cons]; simp [hbm]))
        (fun b hbm => hu b (by simp [hbm]))
        (fun b hbm => hv b (by simp [hbm]))
        hf
      simp only [List.take_succ_cons, List.cons.injEq]
      exact ⟨by omega, by omega, hrec⟩
    | (a + 3), _, _ => exact absurd ha (by omega)

end OneFlight

namespace OneFlight

/-- The first two stripped symbols pin the byte-length residue mod 3 when the
last byte is a decimal digit and the last two bytes agree across the streams. -/
theorem rsym_align_eq :
    ∀ (d e : Nat) (ru2 rv2 : List Nat) (a b : Nat),
      48 ≤ d → d ≤ 57 →
      (d :: e :: ru2).length % 3 = a → (d :: e :: rv2).length % 3 = b →
      (rsymGroups a (d :: e :: ru2)).filter (fun v => decide (v < 62)) =
        (rsymGroups b (d :: e :: rv2)).filter (fun v => decide (v < 62)) →
      a = b := by
  intro d e ru2 rv2 a b hd1 hd2 ha hb hf
  have ha3 : a < 3 := by omega
  have hb3 : b < 3 := by omega
  match a, b with
  | 0, 0 => rfl
  | 1, 1 => rfl
  | 2, 2 => rfl
  | 0, 1 =>
    cases ru2 with
    | nil => simp at ha
    | cons r3 ru3 =>
      rw [show rsymGroups 0 (d :: e :: r3 :: ru3) =
            d % 64 :: (e % 16 * 4 + d / 64) :: (r3 % 4 * 16 + e / 16) :: r3 / 4 ::
              rsymGroups 0 ru3 from rfl,
          show rsymGroups 1 (d :: e :: rv2) =
            d % 4 * 16 :: d / 4 :: rsymGroups 0 (e :: rv2) from rfl] at hf
      rw [filter62_cons _ _ (show d % 64 < 62 by omega),
        filter62_cons _ _ (show e % 16 * 4 + d / 64 < 62 by omega),
        filter62_cons _ _ (show d % 4 * 16 < 62 by omega),
        filter62_cons _ _ (show d / 4 < 62 by omega)] at hf
      simp only [List.cons.injEq] at hf
      omega
  | 0, 2 =>
    cases ru2 with
    | nil => simp at ha
    | cons r3 ru3 =>
      rw [show rsymGroups 0 (d :: e :: r3 :: ru3) =
            d % 64 :: (e % 16 * 4 + d / 64) :: (r3 % 4 * 16 + e / 16) :: r3 / 4 ::
              rsymGroups 0 ru3 from rfl,
          show rsymGroups 2 (d :: e :: rv2) =
            d % 16 * 4 :: (e % 4 * 16 + d / 16) :: e / 4 :: rsymGroups 0 rv2 from rfl] at hf
      rw [filter62_cons _ _ (show d % 64 < 62 by omega),
        filter62_cons _ _ (show e % 16 * 4 + d / 64 < 62 by omega),
        filter62_cons _ _ (show d % 16 * 4 < 62 by omega),
        filter62_cons _ _ (show e % 4 * 16 + d / 16 < 62 by omega)] at hf
      simp only [List.cons.injEq] at hf
      omega
  | 1, 0 =>
    cases rv2 with
    | nil => simp at hb
    | cons r3 rv3 =>
      rw [show rsymGroups 1 (d :: e :: ru2) =
            d % 4 * 16 :: d / 4 :: rsymGroups 0 (e :: ru2) from rfl,
          show rsymGroups 0 (d :: e :: r3 :: rv3) =
            d % 64 :: (e % 16 * 4 + d / 64) :: (r3 % 4 * 16 + e / 16) :: r3 / 4 ::
              rsymGroups 0 rv3 from rfl] at hf
      rw [filter62_cons _ _ (show d % 4 * 16 < 62 by omega),
        filter62_cons _ _ (show d / 4 < 62 by omega),
        filter62_cons _ _ (show d % 64 < 62 by omega),
        filter62_cons _ _ (show e % 16 * 4 + d / 64 < 62 by omega)] at hf
      simp only [List.cons.injEq] at hf
      omega
  | 1, 2 =>
    rw [show rsymGroups 1 (d :: e :: ru2) =
          d % 4 * 16 :: d / 4 :: rsymGroups 0 (e :: ru2) from rfl,
        show rsymGroups 2 (d :: e :: rv2) =
          d % 16 * 4 :: (e % 4 * 16 + d / 16) :: e / 4 :: rsymGroups 0 rv2 from rfl] at hf
    rw [filter62_cons _ _ (show d % 4 * 16 < 62 by omega),
      filter62_cons _ _ (show d / 4 < 62 by omega),
      filter62_cons _ _ (show d % 16 * 4 < 62 by omega),
      filter62_cons _ _ (show e % 4 * 16 + d / 16 < 62 by omega)] at hf
    simp only [List.cons.injEq] at hf
    omega
  | 2, 0 =>
    cases rv2 with
    | nil => simp at hb
    | cons r3 rv3 =>
      rw [show rsymGroups 2 (d :: e :: ru2) =
            d % 16 * 4 :: (e % 4 * 16 + d / 16) :: e / 4 :: rsymGroups 0 ru2 from rfl,
          show rsymGroups 0 (d :: e :: r3 :: rv3) =
            d % 64 :: (e % 16 * 4 + d / 64) :: (r3 % 4 * 16 + e / 16) :: r3 / 4 ::
              rsymGroups 0 rv3 from rfl] at hf
      rw [filter62_cons _ _ (show d % 16 * 4 < 62 by omega),
        filter62_cons _ _ (show e % 4 * 16 + d / 16 < 62 by omega),
        filter62_cons _ _ (show d % 64 < 62 by omega),
        filter62_cons _ _ (show e % 16 * 4 + d / 64 < 62 by omega)] at hf
      simp only [List.cons.injEq] at hf
      omega
  | 2, 1 =>
    rw [show rsymGroups 2 (d :: e :: ru2) =
          d % 16 * 4 :: (e % 4 * 16 + d / 16) :: e / 4 :: rsymGroups 0 ru2 from rfl,
        show rsymGroups 1 (d :: e :: rv2) =
          d % 4 * 16 :: d / 4 :: rsymGroups 0 (e :: rv2) from rfl] at hf
    rw [filter62_cons _ _ (show d % 16 * 4 < 62 by omega),
      filter62_cons _ _ (show e % 4 * 16 + d / 16 < 62 by omega),
      filter62_cons _ _ (show d % 4 * 16 < 62 by omega),
      filter62_cons _ _ (show d / 4 < 62 by omega)] at hf
    simp only [List.cons.injEq] at hf
    omega

end OneFlight

namespace OneFlight

/-- Code points are below 0x110000. -/
theorem char_toNat_lt (c : Char) : c.toNat < 1114112 := by
  have h := c.valid
  rcases h with h | ⟨h1, h2⟩
  · have : c.val.toNat < 55296 := h
    simp only [Char.toNat]
    omega
  · have : c.val.toNat < 1114112 := h2
    simp only [Char.toNat]
    omega

/-- Every UTF-8 code unit is a byte. -/
theorem utf8Char_lt_256 (c : Char) : ∀ b ∈ utf8Char c, b < 256 := by
  intro b hb
  have hc := char_toNat_lt c
  simp only [utf8Char] at hb
  split_ifs at hb <;> simp at hb <;> omega

/-- Every UTF-8 code unit of a string is a byte. -/
theorem utf8Bytes_lt_256 (s : String) : ∀ b ∈ utf8Bytes s, b < 256 := by
  intro b hb
  unfold utf8Bytes at hb
  simp only [List.mem_flatten, List.mem_map] at hb
  obtain ⟨l, ⟨c, _, rfl⟩, hbl⟩ := hb
  exact utf8Char_lt_256 c b hbl

/-- String concatenation concatenates the character lists. -/
theorem toList_append (s t : String) : (s ++ t).toList = s.toList ++ t.toList := by
  cases s
  cases t
  rfl

/-- UTF-8 encoding distributes over concatenation. -/
theorem utf8Bytes_append (s t : String) :
    utf8Bytes (s ++ t) = utf8Bytes s ++ utf8Bytes t := by
  unfold utf8Bytes
  rw [toList_append, List.map_append, List.flatten_append]

/-- The byte encoding of a dash. -/
theorem utf8Bytes_dash : utf8Bytes "-" = [45] := by decide

/-- The decimal digit bytes of a natural number. -/
def digitsBytes (n : Nat) : List Nat :=
  (natDecimalChars n).map Char.toNat

/-- Evaluation of the digit characters. -/
theorem digitCharToNat (m : Nat) (hm : m < 10) : (Char.ofNat (48 + m)).toNat = 48 + m := by
  interval_cases m <;> decide

/-- Digit bytes are the ASCII digits. -/
theorem digitsBytes_range (n : Nat) : ∀ b ∈ digitsBytes n, 48 ≤ b ∧ b ≤ 57 := by
  induction n using natDecimalChars.induct with
  | case1 n h =>
    intro b hb
    unfold digitsBytes natDecimalChars at hb
    simp only [dif_pos h, List.map_cons, List.map_nil, List.mem_singleton] at hb
    rw [hb, digitCharToNat n h]
    omega
  | case2 n h ih =>
    intro b hb
    unfold digitsBytes natDecimalChars at hb
    rw [dif_neg h] at hb
    simp only [List.map_append, List.map_cons, List.map_nil, List.mem_append,
      List.mem_singleton] at hb
    rcases hb with hb | hb
    · exact ih b hb
    · have h10 : n % 10 < 10 := Nat.mod_lt _ (by omega)
      rw [hb, digitCharToNat _ h10]
      omega

/-- The digit list ends with the last decimal digit. -/
theorem digitsBytes_last (n : Nat) : ∃ l, digitsBytes n = l ++ [48 + n % 10] := by
  unfold digitsBytes natDecimalChars
  by_cases h : n < 10
  · refine ⟨[], ?_⟩
    rw [dif_pos h]
    simp [digitCharToNat n h, Nat.mod_eq_of_lt h]
  · refine ⟨(natDecimalChars (n / 10)).map Char.toNat, ?_⟩
    rw [dif_neg h]
    have h10 : n % 10 < 10 := Nat.mod_lt _ (by omega)
    simp [digitCharToNat _ h10]

/-- The base-10 value of a digit byte list. -/
def bytesVal (l : List Nat) : Nat :=
  l.foldl (fun acc b => acc * 10 + (b - 48)) 0

/-- The digit bytes decode back to the number: decimal rendering is injective. -/
theorem bytesVal_digitsBytes (n : Nat) : bytesVal (digitsBytes n) = n := by
  induction n using natDecimalChars.induct with
  | case1 n h =>
    unfold digitsBytes natDecimalChars
    rw [dif_pos h]
    simp [bytesVal, digitCharToNat n h]
  | case2 n h ih =>
    unfold digitsBytes natDecimalChars
    rw [dif_neg h]
    have h10 : n % 10 < 10 := Nat.mod_lt _ (by omega)
    simp only [List.map_append, List.map_cons, List.map_nil]
    unfold bytesVal
    rw [List.foldl_append]
    unfold digitsBytes bytesVal at ih
    rw [ih]
    simp [digitCharToNat _ h10]
    omega

/-- Flattening single-byte encodings. -/
theorem flatten_utf8_ascii :
    ∀ l : List Char, (∀ c ∈ l, utf8Char c = [c.toNat]) →
      (l.map utf8Char).flatten = l.map Char.toNat := by
  intro l
  induction l with
  | nil => intro _; rfl
  | cons c rest ih =>
    intro h
    simp only [List.map_cons, List.flatten_cons]
    rw [h c (by simp), ih (fun x hx => h x (by simp [hx]))]
    rfl

/-- UTF-8 of the decimal rendering is the digit byte list. -/
theorem utf8Bytes_natDecimal (n : Nat) :
    utf8Bytes (natDecimal n) = digitsBytes n := by
  unfold utf8Bytes natDecimal digitsBytes
  have hts : (String.mk (natDecimalChars n)).toList = natDecimalChars n := rfl
  rw [hts]
  apply flatten_utf8_ascii
  intro c hc
  have hr : 48 ≤ c.toNat ∧ c.toNat ≤ 57 := by
    have hm := digitsBytes_range n c.toNat
    exact hm (by unfold digitsBytes; exact List.mem_map_of_mem _ hc)
  simp only [utf8Char]
  rw [if_pos (by omega)]

end OneFlight

namespace OneFlight

/-- A dash terminator cannot sit where the longer digit block still has a
digit. -/
theorem take_rev45_clash (u v : List Nat) (hv : ∀ b ∈ v, 48 ≤ b ∧ b ≤ 57)
    (hlt : u.length < v.length)
    (h : (u.reverse ++ [45]).take (u.length + 1) =
      (v.reverse ++ [45]).take (u.length + 1)) : False := by
  rw [List.take_of_length_le (by simp),
    List.take_append_of_le_length (by simp; omega)] at h
  have h1 : (u.reverse ++ [45])[u.length]? = some 45 := by
    rw [List.getElem?_append_right (by simp)]
    simp
  rw [h] at h1
  rw [List.getElem?_take, if_pos (by omega)] at h1
  have hlen : u.length < v.reverse.length := by simp; omega
  rw [List.getElem?_eq_getElem hlen] at h1
  have hmem : v.reverse[u.length] ∈ v := List.mem_reverse.mp (List.getElem_mem hlen)
  have h48 := (hv _ hmem).1
  simp only [Option.some.injEq] at h1
  omega

/-- Core separation: two byte streams that end in dash, digit block, dash,
and a shared digit block strip to different base64 strings whenever the
middle digit blocks differ. -/
theorem strip_rev_core (pa pb di dj dt : List Nat) (d0 : Nat) (dt0 : List Nat)
    (hpa : ∀ b ∈ pa, b < 256) (hpb : ∀ b ∈ pb, b < 256)
    (hdi : ∀ b ∈ di, 48 ≤ b ∧ b ≤ 57) (hdj : ∀ b ∈ dj, 48 ≤ b ∧ b ≤ 57)
    (hdt : ∀ b ∈ dt, 48 ≤ b ∧ b ≤ 57)
    (hd0 : 48 ≤ d0 ∧ d0 ≤ 57) (hdt0 : dt = dt0 ++ [d0])
    (hne : di ≠ dj)
    (heq : stripReserved (base64Encode (pa ++ [45] ++ di ++ [45] ++ dt)) =
      stripReserved (base64Encode (pb ++ [45] ++ dj ++ [45] ++ dt))) : False := by
  have hx256 : ∀ b ∈ pa ++ [45] ++ di ++ [45] ++ dt, b < 256 := by
    intro b hb
    simp only [List.mem_append, List.mem_singleton] at hb
    rcases hb with ((((hb | hb) | hb) | hb) | hb)
    · exact hpa b hb
    · omega
    · have := hdi b hb; omega
    · omega
    · have := hdt b hb; omega
  have hy256 : ∀ b ∈ pb ++ [45] ++ dj ++ [45] ++ dt, b < 256 := by
    intro b hb
    simp only [List.mem_append, List.mem_singleton] at hb
    rcases hb with ((((hb | hb) | hb) | hb) | hb)
    · exact hpb b hb
    · omega
    · have := hdj b hb; omega
    · omega
    · have := hdt b hb; omega
  have hsymEq : (symGroups (pa ++ [45] ++ di ++ [45] ++ dt)).filter (fun v => decide (v < 62)) =
      (symGroups (pb ++ [45] ++ dj ++ [45] ++ dt)).filter (fun v => decide (v < 62)) := by
    apply map_b64Char_inj
    · intro v hv
      exact symGroups_lt_64 _ hx256 v (List.mem_of_mem_filter hv)
    · intro v hv
      exact symGroups_lt_64 _ hy256 v (List.mem_of_mem_filter hv)
    · rw [← stripReserved_base64 _ hx256, ← stripReserved_base64 _ hy256]
      exact heq
  have hrEq : (rsymGroups ((pa ++ [45] ++ di ++ [45] ++ dt).length % 3)
        (pa ++ [45] ++ di ++ [45] ++ dt).reverse).filter (fun v => decide (v < 62)) =
      (rsymGroups ((pb ++ [45] ++ dj ++ [45] ++ dt).length % 3)
        (pb ++ [45] ++ dj ++ [45] ++ dt).reverse).filter (fun v => decide (v < 62)) := by
    rw [← rsym_spec _ _ rfl, ← rsym_spec _ _ rfl,
      List.filter_reverse, List.filter_reverse, hsymEq]
  have hxrev2 : (pa ++ [45] ++ di ++ [45] ++ dt).reverse =
      (dt.reverse ++ [45]) ++ ((di.reverse ++ [45]) ++ pa.reverse) := by
    simp
  have hyrev2 : (pb ++ [45] ++ dj ++ [45] ++ dt).reverse =
      (dt.reverse ++ [45]) ++ ((dj.reverse ++ [45]) ++ pb.reverse) := by
    simp
  have hrx : (pa ++ [45] ++ di ++ [45] ++ dt).reverse =
      d0 :: (dt0.reverse ++ (45 :: (di.reverse ++ (45 :: pa.reverse)))) := by
    rw [hxrev2, hdt0]
    simp
  have hry : (pb ++ [45] ++ dj ++ [45] ++ dt).reverse =
      d0 :: (dt0.reverse ++ (45 :: (dj.reverse ++ (45 :: pb.reverse)))) := by
    rw [hyrev2, hdt0]
    simp
  obtain ⟨e, ru2, rv2, hrxc, hryc⟩ : ∃ e ru2 rv2,
      (pa ++ [45] ++ di ++ [45] ++ dt).reverse = d0 :: e :: ru2 ∧
      (pb ++ [45] ++ dj ++ [45] ++ dt).reverse = d0 :: e :: rv2 := by
    cases hdt0r : dt0.reverse with
    | nil =>
      refine ⟨45, di.reverse ++ (45 :: pa.reverse), dj.reverse ++ (45 :: pb.reverse), ?_, ?_⟩
      · rw [hrx, hdt0r]; rfl
      · rw [hry, hdt0r]; rfl
    | cons q t =>
      refine ⟨q, t ++ (45 :: (di.reverse ++ (45 :: pa.reverse))),
        t ++ (45 :: (dj.reverse ++ (45 :: pb.reverse))), ?_, ?_⟩
      · rw [hrx, hdt0r]; rfl
      · rw [hry, hdt0r]; rfl
  have hab : (pa ++ [45] ++ di ++ [45] ++ dt).length % 3 =
      (pb ++ [45] ++ dj ++ [45] ++ dt).length % 3 := by
    apply rsym_align_eq d0 e ru2 rv2 _ _ hd0.1 hd0.2
    · rw [← hrxc, List.length_reverse]
    · rw [← hryc, List.length_reverse]
    · rw [hrxc, hryc] at hrEq
      exact hrEq
  have htake_x : (pa ++ [45] ++ di ++ [45] ++ dt).reverse.take
        (dt.length + 1 + (min di.length dj.length + 1)) =
      (dt.reverse ++ [45]) ++ (di.reverse ++ [45]).take (min di.length dj.length + 1) := by
    rw [hxrev2]
    rw [show dt.length + 1 + (min di.length dj.length + 1) =
        (dt.reverse ++ [45]).length + (min di.length dj.length + 1) from by
      simp only [List.length_append, List.length_reverse, List.length_cons,
        List.length_nil]]
    rw [List.take_append]
    congr 1
    rw [List.take_append_of_le_length (by
      simp only [List.length_append, List.length_reverse, List.length_cons,
        List.length_nil]
      omega)]
  have htake_y : (pb ++ [45] ++ dj ++ [45] ++ dt).reverse.take
        (dt.length + 1 + (min di.length dj.length + 1)) =
      (dt.reverse ++ [45]) ++ (dj.reverse ++ [45]).take (min di.length dj.length + 1) := by
    rw [hyrev2]
    rw [show dt.length + 1 + (min di.length dj.length + 1) =
        (dt.reverse ++ [45]).length + (min di.length dj.length + 1) from by
      simp only [List.length_append, List.length_reverse, List.length_cons,
        List.length_nil]]
    rw [List.take_append]
    congr 1
    rw [List.take_append_of_le_length (by
      simp only [List.length_append, List.length_reverse, List.length_cons,
        List.length_nil]
      omega)]
  have htkeq : (pa ++ [45] ++ di ++ [45] ++ dt).reverse.take
        (dt.length + 1 + (min di.length dj.length + 1)) =
      (pb ++ [45] ++ dj ++ [45] ++ dt).reverse.take
        (dt.length + 1 + (min di.length dj.length + 1)) := by
    apply rsym_filter_take (pa ++ [45] ++ di ++ [45] ++ dt).reverse.length _ _
      ((pa ++ [45] ++ di ++ [45] ++ dt).length % 3) _ rfl
    · rw [List.length_reverse]
    · rw [List.length_reverse]
      exact hab.symm
    · rw [List.length_reverse]
      simp only [List.length_append, List.length_cons, List.length_nil]
      omega
    · rw [List.length_reverse]
      simp only [List.length_append, List.length_cons, List.length_nil]
      omega
    · rw [htake_x]
      intro b hb
      simp only [List.mem_append, List.mem_reverse, List.mem_singleton] at hb
      rcases hb with (hb | hb) | hb
      · have := hdt b hb; omega
      · omega
      · have hb2 := List.mem_of_mem_take hb
        simp only [List.mem_append, List.mem_reverse, List.mem_singleton] at hb2
        rcases hb2 with hb2 | hb2
        · have := hdi b hb2; omega
        · omega
    · rw [htake_y]
      intro b hb
      simp only [List.mem_append, List.mem_reverse, List.mem_singleton] at hb
      rcases hb with (hb | hb) | hb
      · have := hdt b hb; omega
      · omega
      · have hb2 := List.mem_of_mem_take hb
        simp only [List.mem_append, List.mem_reverse, List.mem_singleton] at hb2
        rcases hb2 with hb2 | hb2
        · have := hdj b hb2; omega
        · omega
    · intro b hb
      exact hx256 b (List.mem_reverse.mp hb)
    · intro b hb
      exact hy256 b (List.mem_reverse.mp hb)
    · rw [← hab] at hrEq
      exact hrEq
  rw [htake_x, htake_y] at htkeq
  have hEk := List.append_cancel_left htkeq
  rcases Nat.lt_trichotomy di.length dj.length with hlt | hl_eq | hgt
  · exact take_rev45_clash di dj (fun b hb => hdj b hb) hlt (by
      rw [show di.length + 1 = min di.length dj.length + 1 from by omega]
      exact hEk)
  · have hful : di.reverse ++ [45] = dj.reverse ++ [45] := by
      have e1 : (di.reverse ++ [45]).take (min di.length dj.length + 1) =
          di.reverse ++ [45] :=
        List.take_of_length_le (by
          simp only [List.length_append, List.length_reverse, List.length_cons,
            List.length_nil]
          omega)
      have e2 : (dj.reverse ++ [45]).take (min di.length dj.length + 1) =
          dj.reverse ++ [45] :=
        List.take_of_length_le (by
          simp only [List.length_append, List.length_reverse, List.length_cons,
            List.length_nil]
          omega)
      rw [e1, e2] at hEk
      exact hEk
    exact hne (List.reverse_injective (List.append_cancel_right hful))
  · exact take_rev45_clash dj di (fun b hb => hdi b hb) hgt (by
      rw [show dj.length + 1 = min di.length dj.length + 1 from by omega]
      exact hEk.symm)

end OneFlight

namespace OneFlight

/-- Property read after property write. -/
theorem lookupField_setField (fields : List (String × Json)) (k : String) (v : Json) :
    lookupField (setField fields k v) k = some v := by
  induction fields with
  | nil => simp [setField, lookupField, List.find?]
  | cons p rest ih =>
    obtain ⟨k2, v2⟩ := p
    rw [setField]
    split_ifs with h
    · simp [lookupField, List.find?]
    · unfold lookupField
      rw [List.find?_cons_of_neg _ (by simpa using h)]
      exact ih

/-- Indices distinguish the synthesized identifiers regardless of the other
fields. -/
theorem synthesizeId_ne_of_idx (f g : List (String × Json)) (i j ts : Nat)
    (hij : i ≠ j) : synthesizeId f i ts ≠ synthesizeId g j ts := by
  intro h
  simp only [synthesizeId] at h
  have h2 := congrArg String.toList h
  rw [toList_append, toList_append] at h2
  have h3 := List.append_cancel_left h2
  have hsplit1 : utf8Bytes (jsFieldString f "flyFrom" ++ "-" ++ jsFieldString f "flyTo" ++
        "-" ++ jsFieldString f "price" ++ "-" ++ natDecimal i ++ "-" ++ natDecimal ts) =
      utf8Bytes (jsFieldString f "flyFrom" ++ "-" ++ jsFieldString f "flyTo" ++ "-" ++
        jsFieldString f "price") ++ [45] ++ digitsBytes i ++ [45] ++ digitsBytes ts := by
    rw [utf8Bytes_append, utf8Bytes_append, utf8Bytes_append, utf8Bytes_append,
      utf8Bytes_dash, utf8Bytes_natDecimal, utf8Bytes_natDecimal]
  have hsplit2 : utf8Bytes (jsFieldString g "flyFrom" ++ "-" ++ jsFieldString g "flyTo" ++
        "-" ++ jsFieldString g "price" ++ "-" ++ natDecimal j ++ "-" ++ natDecimal ts) =
      utf8Bytes (jsFieldString g "flyFrom" ++ "-" ++ jsFieldString g "flyTo" ++ "-" ++
        jsFieldString g "price") ++ [45] ++ digitsBytes j ++ [45] ++ digitsBytes ts := by
    rw [utf8Bytes_append, utf8Bytes_append, utf8Bytes_append, utf8Bytes_append,
      utf8Bytes_dash, utf8Bytes_natDecimal, utf8Bytes_natDecimal]
  obtain ⟨dt0, hdt0⟩ := digitsBytes_last ts
  refine strip_rev_core
    (utf8Bytes (jsFieldString f "flyFrom" ++ "-" ++ jsFieldString f "flyTo" ++ "-" ++
      jsFieldString f "price"))
    (utf8Bytes (jsFieldString g "flyFrom" ++ "-" ++ jsFieldString g "flyTo" ++ "-" ++
      jsFieldString g "price"))
    (digitsBytes i) (digitsBytes j) (digitsBytes ts) (48 + ts % 10) dt0
    (utf8Bytes_lt_256 _) (utf8Bytes_lt_256 _)
    (digitsBytes_range i) (digitsBytes_range j) (digitsBytes_range ts)
    ⟨by omega, by omega⟩ hdt0 ?_ ?_
  · intro hc
    exact hij (by rw [← bytesVal_digitsBytes i, ← bytesVal_digitsBytes j, hc])
  · rw [← hsplit1, ← hsplit2]
    exact h3

/-- The synthesized identifiers contain no reserved separator character. -/
theorem synthesizeId_no_reserved (f : List (String × Json)) (idx ts : Nat) :
    ∀ c ∈ (synthesizeId f idx ts).toList, c ≠ '+' ∧ c ≠ '/' ∧ c ≠ '=' := by
  intro c hc
  simp only [synthesizeId] at hc
  rw [toList_append] at hc
  simp only [List.mem_append] at hc
  rcases hc with hc | hc
  · have hk : ("kiwi-").toList = ['k', 'i', 'w', 'i', '-'] := rfl
    rw [hk] at hc
    simp only [List.mem_cons, List.not_mem_nil, or_false] at hc
    rcases hc with rfl | rfl | rfl | rfl | rfl <;> exact ⟨by decide, by decide, by decide⟩
  · have hc2 : c ∈ stripReserved (base64Encode (utf8Bytes (jsFieldString f "flyFrom" ++
        "-" ++ jsFieldString f "flyTo" ++ "-" ++ jsFieldString f "price" ++ "-" ++
        natDecimal idx ++ "-" ++ natDecimal ts))) := hc
    have hp := List.of_mem_filter hc2
    simp only [Bool.not_eq_eq_eq_not, Bool.not_true, Bool.or_eq_false_iff,
      beq_eq_false_iff_ne, ne_eq] at hp
    exact ⟨hp.1.1, hp.1.2, hp.2⟩

end OneFlight

namespace OneFlight

/-- The validated record reads back the id property of its source object. -/
theorem zodParse_id_field (fields2 : List (String × Json)) (v : V1FlightResult)
    (hparse : zodParseFlightResult (.obj fields2) = some v) :
    zodOptString fields2 "id" = some v.id := by
  unfold zodParseFlightResult at hparse
  repeat rw [Option.bind_eq_bind] at hparse
  rw [Option.bind_eq_some] at hparse
  obtain ⟨idv, hidv, hparse⟩ := hparse
  rw [Option.bind_eq_some] at hparse
  obtain ⟨ff, hff, hparse⟩ := hparse
  rw [Option.bind_eq_some] at hparse
  obtain ⟨ft, hft, hparse⟩ := hparse
  rw [Option.bind_eq_some] at hparse
  obtain ⟨cf, hcf, hparse⟩ := hparse
  rw [Option.bind_eq_some] at hparse
  obtain ⟨ct, hct, hparse⟩ := hparse
  rw [Option.bind_eq_some] at hparse
  obtain ⟨dep, hdep, hparse⟩ := hparse
  rw [Option.bind_eq_some] at hparse
  obtain ⟨arr2, harr2, hparse⟩ := hparse
  rw [Option.bind_eq_some] at hparse
  obtain ⟨tds, htds, hparse⟩ := hparse
  rw [Option.bind_eq_some] at hparse
  obtain ⟨ds, hds, hparse⟩ := hparse
  rw [Option.bind_eq_some] at hparse
  obtain ⟨pr, hpr, hparse⟩ := hparse
  cases hcur : lookupField fields2 "currency" with
  | none =>
    simp only [hcur, Option.bind_eq_bind, Option.some_bind] at hparse
    rw [Option.bind_eq_some] at hparse
    obtain ⟨dl, hdl, hparse⟩ := hparse
    cases hlay : lookupField fields2 "layovers" with
    | none =>
      simp only [hlay, Option.bind_eq_bind, Option.some_bind] at hparse
      rw [Option.pure_def, Option.some.injEq] at hparse
      rw [hidv, ← hparse]
    | some jlay =>
      cases jlay with
      | arr items =>
        cases hzl : zodV1Layovers items with
        | none => simp [hlay, hzl] at hparse
        | some ls =>
          simp only [hlay, hzl, Option.bind_eq_bind, Option.map_some',
            Option.some_bind] at hparse
          rw [Option.pure_def, Option.some.injEq] at hparse
          rw [hidv, ← hparse]
      | null => simp [hlay] at hparse
      | bool b2 => simp [hlay] at hparse
      | num q2 => simp [hlay] at hparse
      | str s2 => simp [hlay] at hparse
      | obj o2 => simp [hlay] at hparse
  | some jcur =>
    cases jcur with
    | str scur =>
      simp only [hcur, Option.bind_eq_bind, Option.some_bind] at hparse
      rw [Option.bind_eq_some] at hparse
      obtain ⟨dl, hdl, hparse⟩ := hparse
      cases hlay : lookupField fields2 "layovers" with
      | none =>
        simp only [hlay, Option.bind_eq_bind, Option.some_bind] at hparse
        rw [Option.pure_def, Option.some.injEq] at hparse
        rw [hidv, ← hparse]
      | some jlay =>
        cases jlay with
        | arr items =>
          cases hzl : zodV1Layovers items with
          | none => simp [hlay, hzl] at hparse
          | some ls =>
            simp only [hlay, hzl, Option.bind_eq_bind, Option.map_some',
              Option.some_bind] at hparse
            rw [Option.pure_def, Option.some.injEq] at hparse
            rw [hidv, ← hparse]
        | null => simp [hlay] at hparse
        | bool b2 => simp [hlay] at hparse
        | num q2 => simp [hlay] at hparse
        | str s2 => simp [hlay] at hparse
        | obj o2 => simp [hlay] at hparse
    | null => simp [hcur] at hparse
    | bool b => simp [hcur] at hparse
    | num q => simp [hcur] at hparse
    | arr a2 => simp [hcur] at hparse
    | obj o2 => simp [hcur] at hparse

end OneFlight

namespace OneFlight

/-- Every assigned identifier is a synthesis at a counter at or past the
starting counter. -/
theorem assignedIdsGo_spec (ts : Nat) :
    ∀ (flights : List Json) (idx : Nat) (s : String), s ∈ assignedIdsGo ts flights idx →
      ∃ f k, idx ≤ k ∧ s = synthesizeId f k ts := by
  intro flights
  induction flights with
  | nil =>
    intro idx s hs
    simp [assignedIdsGo] at hs
  | cons c rest ih =>
    intro idx s hs
    match c with
    | .obj fields =>
      have h0 : assignedIdsGo ts (Json.obj fields :: rest) idx =
          if isFalsyField (lookupField fields "id") then
            synthesizeId fields idx ts :: assignedIdsGo ts rest (idx + 1)
          else assignedIdsGo ts rest (idx + 1) := rfl
      rw [h0] at hs
      split_ifs at hs with hfal
      · rcases List.mem_cons.mp hs with rfl | hs2
        · exact ⟨fields, idx, Nat.le_refl idx, rfl⟩
        · obtain ⟨f, k, hk, hsk⟩ := ih (idx + 1) s hs2
          exact ⟨f, k, by omega, hsk⟩
      · obtain ⟨f, k, hk, hsk⟩ := ih (idx + 1) s hs
        exact ⟨f, k, by omega, hsk⟩
    | .arr elems =>
      have h0 : assignedIdsGo ts (Json.arr elems :: rest) idx =
          assignedIdsGo ts rest (idx + 1) := rfl
      rw [h0] at hs
      obtain ⟨f, k, hk, hsk⟩ := ih (idx + 1) s hs
      exact ⟨f, k, by omega, hsk⟩
    | .null => exact ih idx s hs
    | .bool b => exact ih idx s hs
    | .num q => exact ih idx s hs
    | .str s2 => exact ih idx s hs

/-- The assigned identifiers of one batch are pairwise distinct. -/
theorem assignedIdsGo_pairwise (ts : Nat) :
    ∀ (flights : List Json) (idx : Nat),
      List.Pairwise (fun s t => s ≠ t) (assignedIdsGo ts flights idx) := by
  intro flights
  induction flights with
  | nil => intro idx; simp [assignedIdsGo]
  | cons c rest ih =>
    intro idx
    match c with
    | .obj fields =>
      have h0 : assignedIdsGo ts (Json.obj fields :: rest) idx =
          if isFalsyField (lookupField fields "id") then
            synthesizeId fields idx ts :: assignedIdsGo ts rest (idx + 1)
          else assignedIdsGo ts rest (idx + 1) := rfl
      rw [h0]
      split_ifs with hfal
      · refine List.pairwise_cons.mpr ⟨?_, ih (idx + 1)⟩
        intro s hs
        obtain ⟨f, k, hk, rfl⟩ := assignedIdsGo_spec ts rest (idx + 1) s hs
        exact synthesizeId_ne_of_idx fields f idx k ts (by omega)
      · exact ih (idx + 1)
    | .arr elems => exact ih (idx + 1)
    | .null => exact ih idx
    | .bool b => exact ih idx
    | .num q => exact ih idx
    | .str s2 => exact ih idx

/-- A candidate whose id is falsy is validated with the synthesized id written
into it. -/
theorem validateFlightsGo_obj_step (ts : Nat) (fields : List (String × Json))
    (rest : List Json) (idx : Nat)
    (hfal : isFalsyField (lookupField fields "id") = true) :
    validateFlightsGo ts (.obj fields :: rest) idx =
      match zodParseFlightResult (.obj (setField fields "id"
          (.str (synthesizeId fields idx ts)))) with
      | some v => v :: validateFlightsGo ts rest (idx + 1)
      | none => validateFlightsGo ts rest (idx + 1) := by
  have h0 : validateFlightsGo ts (Json.obj fields :: rest) idx =
      (let fields2 :=
        if isFalsyField (lookupField fields "id") then
          setField fields "id" (.str (synthesizeId fields idx ts))
        else fields
      match zodParseFlightResult (.obj fields2) with
      | some v => v :: validateFlightsGo ts rest (idx + 1)
      | none => validateFlightsGo ts rest (idx + 1)) := rfl
  rw [h0]
  simp only [hfal, if_true]

end OneFlight

namespace OneFlight

/-- A witness candidate record lacking an id. -/
def wC7Fields : List (String × Json) :=
  [("flyFrom", .str "JFK"), ("flyTo", .str "LAX"),
   ("cityFrom", .str "New York"), ("cityTo", .str "Los Angeles"),
   ("departure", .obj [("utc", .str "2024-05-01T10:00:00Z"),
     ("local", .str "2024-05-01T06:00:00")]),
   ("arrival", .obj [("utc", .str "2024-05-01T16:00:00Z"),
     ("local", .str "2024-05-01T13:00:00")]),
   ("totalDurationInSeconds", .num 21600), ("price", .num 199),
   ("deepLink", .str "https://example.com/x")]

/-- The validated record of the witness candidate. -/
def wC7Flight : V1FlightResult :=
  { id := some (synthesizeId wC7Fields 0 7)
    flyFrom := "JFK", flyTo := "LAX", cityFrom := "New York"
    cityTo := "Los Angeles"
    departure := { utc := "2024-05-01T10:00:00Z", localTime := "2024-05-01T06:00:00" }
    arrival := { utc := "2024-05-01T16:00:00Z", localTime := "2024-05-01T13:00:00" }
    totalDurationInSeconds := 21600, durationInSeconds := none, price := 199
    currency := "EUR", deepLink := "https://example.com/x", layovers := none }

/-- C7: a candidate whose id is falsy is validated with the synthesized
identifier written into it, and that identifier is a pure function of the
origin string, destination string, price string, batch position and batch
timestamp; within one batch the synthesized identifiers are pairwise
distinct; and no synthesized identifier contains a reserved character. -/
theorem synthesized_ids_unique_urlsafe :
    (∀ ts flights, List.Pairwise (fun s t => s ≠ t) (assignedIds ts flights)) ∧
    (∀ fields idx ts, ∀ c ∈ (synthesizeId fields idx ts).toList,
      c ≠ '+' ∧ c ≠ '/' ∧ c ≠ '=') ∧
    (∀ fields fields2 idx ts,
      jsFieldString fields "flyFrom" = jsFieldString fields2 "flyFrom" →
      jsFieldString fields "flyTo" = jsFieldString fields2 "flyTo" →
      jsFieldString fields "price" = jsFieldString fields2 "price" →
      synthesizeId fields idx ts = synthesizeId fields2 idx ts) ∧
    (∀ ts fields rest idx v,
      isFalsyField (lookupField fields "id") = true →
      zodParseFlightResult (.obj (setField fields "id"
        (.str (synthesizeId fields idx ts)))) = some v →
      validateFlightsGo ts (.obj fields :: rest) idx =
        v :: validateFlightsGo ts rest (idx + 1) ∧
      v.id = some (synthesizeId fields idx ts)) := by
  refine ⟨?_, ?_, ?_, ?_⟩
  · intro ts flights
    exact assignedIdsGo_pairwise ts flights 0
  · intro fields idx ts c hc
    exact synthesizeId_no_reserved fields idx ts c hc
  · intro fields fields2 idx ts h1 h2 h3
    simp only [synthesizeId, h1, h2, h3]
  · intro ts fields rest idx v hfal hparse
    constructor
    · rw [validateFlightsGo_obj_step ts fields rest idx hfal, hparse]
    · have hid := zodParse_id_field _ v hparse
      unfold zodOptString at hid
      simp only [lookupField_setField, Option.some.injEq] at hid
      exact hid.symm

/-- C7 witness: two id-less candidates at timestamp 7 receive distinct
identifiers; a concrete synthesized identifier is free of reserved
characters; identifiers ignore fields beyond the named ones; and a concrete
falsy-id candidate is validated with the synthesized id written in. -/
theorem synthesized_ids_unique_urlsafe_witness :
    List.Pairwise (fun s t => s ≠ t) (assignedIds 7 [Json.obj [], Json.obj []]) ∧
    (∀ c ∈ (synthesizeId [] 0 7).toList, c ≠ '+' ∧ c ≠ '/' ∧ c ≠ '=') ∧
    synthesizeId [("extra", Json.num 1)] 0 7 = synthesizeId [] 0 7 ∧
    (validateFlightsGo 7 [Json.obj wC7Fields] 0 =
        wC7Flight :: validateFlightsGo 7 [] 1 ∧
      wC7Flight.id = some (synthesizeId wC7Fields 0 7)) :=
  ⟨synthesized_ids_unique_urlsafe.1 7 [Json.obj [], Json.obj []],
   synthesized_ids_unique_urlsafe.2.1 [] 0 7,
   synthesized_ids_unique_urlsafe.2.2.1 [("extra", Json.num 1)] [] 0 7 rfl rfl rfl,
   synthesized_ids_unique_urlsafe.2.2.2 7 wC7Fields [] 0 wC7Flight rfl rfl⟩

end OneFlight
